import Mathlib

/-!
# GUITextBox (Common/gui/guitextbox.cpp): a shallow embedding

The text-entry control of the GUI layer is embedded as pure functions on an
explicit widget state.

Conventions of the embedding
* A C string (`const char*`, `String`) is the list of its bytes before the
  terminating NUL; a byte is a `Nat` below 256. Where the code reads a string
  without regard to its end, what the memory holds behind the NUL is a
  parameter.
* `int` values are `Int`; the flag word `_textBoxFlags` is kept as its 32-bit
  pattern (a `Nat`), so that the bit operations of `SetShowBorder` and of the
  legacy xor-mask are the `Nat` ones.
* Collaborators whose code is not part of `guitextbox.cpp` (font metrics,
  display scale, text-encoding mode, base-class serializers, header constants)
  are parameters; helpers of the repository that are only called here
  (`Utf8::BackOneChar`, `String::ClipRight`, the `Stream` primitives) are
  modelled from the specification and marked as such.
-/

set_option autoImplicit false

namespace AGS

/-! ## Data model -/

/-- Text encoding mode, the result of `get_uformat()`: UTF-8 or the legacy
single-byte mode. -/
inductive UFormat where
  | U_UTF8
  | U_ASCII
  deriving DecidableEq, Repr

/-- Key codes as far as `OnKeyPress` distinguishes them: the two labels of its
`switch`, and every other code. -/
inductive eAGSKeyCode where
  | eAGSKeyCodeReturn
  | eAGSKeyCodeBackspace
  | eAGSKeyCodeOther (code : Nat)
  deriving DecidableEq, Repr

/-- The key event `KeyInput`: key code, character value and the UTF-8 bytes of
the pressed key (a C string). `TextBehind j` is the byte the memory holds at
`Text[strlen(Text) + 1 + j]`, behind the terminating NUL. -/
structure KeyInput where
  Key : eAGSKeyCode
  UChar : Nat
  Text : List Nat
  TextBehind : Nat → Nat

/-- External collaborators read by the control: the process-wide text
encoding mode, the font metric `get_text_width(text, font)` and the display
scale helper `get_fixed_pixel_size(n)`. -/
structure Collab where
  get_uformat : UFormat
  get_text_width : List Nat → Int → Int
  get_fixed_pixel_size : Int → Int

/-- Constants declared in headers that are not part of the source file. -/
structure Decls where
  kTextBox_ShowBorder : Nat
  kTextBox_OldFmtXorMask : Nat
  kGuiVersion_350 : Int
  kGuiSvgVersion_350 : Int

/-- The part of the base class `GUIObject` the control reads or writes: the
width and the changed ("dirty") marker set by `MarkChanged`. -/
structure GUIObject where
  _width : Int
  _hasChanged : Bool
  deriving DecidableEq, Repr

/-- State of a `GUITextBox`. -/
structure GUITextBox extends GUIObject where
  _text : List Nat
  _font : Int
  _textColor : Int
  _textBoxFlags : Nat
  _isActivated : Bool
  deriving DecidableEq, Repr

/-- Serializers of the base class `GUIObject`, which the control delegates to
first. A writer yields the bytes it emits; a reader consumes bytes from the
front of the stream and yields the updated base part and the rest. -/
structure BaseSerial where
  WriteToFile : GUIObject → List Nat
  ReadFromFile : GUIObject → List Nat → Int → Option (GUIObject × List Nat)
  WriteToSavegame : GUIObject → List Nat
  ReadFromSavegame : GUIObject → List Nat → Int → Option (GUIObject × List Nat)

/-! ## Property surface -/

/-- Modelled from the spec: `GUIObject::MarkChanged` (base class, not in the
source file); "mutators mark the control dirty on change". -/
def MarkChanged (w : GUITextBox) : GUITextBox :=
  { w with _hasChanged := true }

/-- `GUITextBox::SetFont`. -/
def SetFont (w : GUITextBox) (font : Int) : GUITextBox :=
  if w._font ≠ font then MarkChanged { w with _font := font } else w

/-- `GUITextBox::SetTextColor`. -/
def SetTextColor (w : GUITextBox) (color : Int) : GUITextBox :=
  if w._textColor ≠ color then MarkChanged { w with _textColor := color } else w

/-- `GUITextBox::SetText`. -/
def SetText (w : GUITextBox) (text : List Nat) : GUITextBox :=
  if w._text ≠ text then MarkChanged { w with _text := text } else w

/-- `GUITextBox::IsBorderShown`. -/
def IsBorderShown (d : Decls) (w : GUITextBox) : Bool :=
  (w._textBoxFlags &&& d.kTextBox_ShowBorder) != 0

/-- `GUITextBox::SetShowBorder`; `~kTextBox_ShowBorder` is the complement
within the 32-bit word. -/
def SetShowBorder (d : Decls) (w : GUITextBox) (on_ : Bool) : GUITextBox :=
  if on_ then
    { w with _textBoxFlags := w._textBoxFlags ||| d.kTextBox_ShowBorder }
  else
    { w with _textBoxFlags := w._textBoxFlags &&& (0xFFFFFFFF ^^^ d.kTextBox_ShowBorder) }

/-! ## Backspace -/

/-- A UTF-8 continuation byte `10xxxxxx`, that is `0x80..0xBF`. -/
def isContinuationByte (b : Nat) : Bool :=
  b &&& 0xC0 == 0x80

/-- Backward scan of `BackOneChar` over the reversed text: the number of
bytes from the start of the last code point to the end. It steps over
continuation bytes, never past the beginning, and looks at no more than
`more + 1` bytes. -/
def backScan : Nat → List Nat → Nat
  | _, [] => 0
  | 0, _ :: _ => 1
  | more + 1, b :: rest =>
    if isContinuationByte b && !rest.isEmpty then 1 + backScan more rest else 1

/-- Modelled from the spec: `Utf8::BackOneChar(ptr_end, begin)` (util/utf8.h
is not among the sources); "find the start of the last code point by scanning
backwards from end-of-string (at most 4 bytes)". The result is the offset of
that start from the beginning of the text. -/
def Utf8_BackOneChar (text : List Nat) : Nat :=
  text.length - backScan 3 text.reverse

/-- Modelled from the spec: `String::ClipRight(count)` (util/string.h is not
among the sources); cuts `count` bytes off the end, "truncating an
already-empty string is a no-op". -/
def ClipRight (text : List Nat) (count : Nat) : List Nat :=
  text.take (text.length - count)

/-- The static helper `Backspace(String &text)`. -/
def Backspace (c : Collab) (text : List Nat) : List Nat :=
  if c.get_uformat = UFormat.U_UTF8 then
    let ptr_end := text.length
    let ptr_prev := Utf8_BackOneChar text
    ClipRight text (ptr_end - ptr_prev)
  else
    ClipRight text 1

/-! ## UTF-8 to Windows-1251 -/

/-- The table `wtable[64]`. -/
def wtable : List Int :=
  [0x0402, 0x0403, 0x201A, 0x0453, 0x201E, 0x2026, 0x2020, 0x2021,
   0x20AC, 0x2030, 0x0409, 0x2039, 0x040A, 0x040C, 0x040B, 0x040F,
   0x0452, 0x2018, 0x2019, 0x201C, 0x201D, 0x2022, 0x2013, 0x2014,
   0x007F, 0x2122, 0x0459, 0x203A, 0x045A, 0x045C, 0x045B, 0x045F,
   0x00A0, 0x040E, 0x045E, 0x0408, 0x00A4, 0x0490, 0x00A6, 0x00A7,
   0x0401, 0x00A9, 0x0404, 0x00AB, 0x00AC, 0x00AD, 0x00AE, 0x0407,
   0x00B0, 0x00B1, 0x0406, 0x0456, 0x0491, 0x00B5, 0x00B6, 0x00B7,
   0x0451, 0x2116, 0x0454, 0x00BB, 0x0458, 0x0405, 0x0455, 0x0457]

/-- The search `k = 0; while (k<64 && wtable[k]!=uc) k++;` run over the
entries from position `k` on: the position of the first entry equal to `uc`,
or the table length when there is none. -/
def wtable_search (uc : Int) : List Int → Nat → Nat
  | [], k => k
  | e :: es, k => if e ≠ uc then wtable_search uc es (k + 1) else k

/-- Classification of the first byte `wc` of a sequence (lines 171-203): the
payload bits `uc` and the number `m` of continuation bytes, `m = -1` for a
byte that cannot start a sequence; there `uc` is left as it was. -/
def decodeLead (wc uc : Int) : Int × Int :=
  if wc ≥ 0xF8 then (uc, -1)
  else if wc ≥ 0xF0 then (Int.land wc 0x07, 3)
  else if wc ≥ 0xE0 then (Int.land wc 0x0F, 2)
  else if wc ≥ 0xC0 then (Int.land wc 0x1F, 1)
  else if wc ≤ 0x7F then (wc, 0)
  else (uc, -1)

/-- The memory a pointer `text` addresses, by index: the bytes of the string,
then its terminating NUL, then whatever the memory holds behind it, `behind j`
at index `strlen(text) + 1 + j`. -/
def memAt (text : List Nat) (behind : Nat → Nat) (i : Nat) : Nat :=
  if h : i < text.length then text.get ⟨i, h⟩
  else if i = text.length then 0
  else behind (i - text.length - 1)

/-- The value `(unsigned char)text[i]`. -/
def readByte (mem : Nat → Nat) (i : Nat) : Int :=
  ((mem i % 256 : Nat) : Int)

/-- The loop `while (k<=m && wc<=0xBF)` with `n = m - k + 1` rounds to go
(lines 207-213): every round reads `text[i++]` without a test against the end
of the string; yields the index `i`, `uc` and the last byte read `wc`. -/
def readContinuation : Nat → (Nat → Nat) → Nat → Int → Int → Nat × Int × Int
  | 0, _, i, uc, wc => (i, uc, wc)
  | n + 1, mem, i, uc, wc =>
    if wc ≤ 0xBF then
      let wc1 := readByte mem i
      readContinuation n mem (i + 1) (uc <<< 6 + Int.land wc1 0x3F) wc1
    else (i, uc, wc)

/-- "Unicode to Windows-1251" (lines 219-251): the value of `wc` for the
code point `uc`. -/
def toWin1251 (uc : Int) : Int :=
  if uc < 0 then -1
  else if uc ≤ 0x7F then uc
  else if uc ≥ 0x0410 ∧ uc ≤ 0x042F then uc - 0x410 + 0xC0
  else if uc ≥ 0x0430 ∧ uc ≤ 0x044F then uc - 0x0430 + 0xE0
  else
    let k := wtable_search uc wtable 0
    if k < 64 then (k : Int) + 0x80 else 0x3F

/-- "Read Unicode character" (lines 167-217), entered with the first byte
`b` already fetched and `rest` the string from the next byte on: the string
from the byte after the sequence on, and the code point `uc`, which is `-1` on
an error. The continuation bytes are read from `rest`, its NUL and the memory
behind it; when the index has passed the NUL nothing of the string is left. -/
def readUnicodeChar (behind : Nat → Nat) (b : Nat) (rest : List Nat) (uc : Int) :
    List Nat × Int :=
  let wc : Int := ((b % 256 : Nat) : Int)
  let um := decodeLead wc uc
  let r := readContinuation um.2.toNat (memAt rest behind) 0 um.1 0
  (rest.drop r.1, if r.2.2 > 0xBF ∨ um.2 < 0 then -1 else r.2.1)

/-- The main loop of `utf8_to_win1251`, `while (i<strlen(text))`; the cursor
`text + i` is the unread rest of the input, `behind` is the memory behind its
NUL, and the result is the list of bytes stored to `wtext`. Every round reads
at least one byte, so `fuel = strlen(text)` rounds are enough
(`utf8_to_win1251_loop_fuel`). -/
def utf8_to_win1251_loop (behind : Nat → Nat) : Nat → List Nat → Int → List Nat
  | 0, _, _ => []
  | _ + 1, [], _ => []
  | fuel + 1, b :: rest, uc =>
    let r := readUnicodeChar behind b rest uc
    let wc := toWin1251 r.2
    if wc > 0 then
      (wc % 256).toNat :: utf8_to_win1251_loop behind fuel r.1 r.2
    else
      utf8_to_win1251_loop behind fuel r.1 r.2

/-- The function `utf8_to_win1251(text, wtext)`: `text` is the string with
the memory `behind` its NUL, `wtext` is `none` for a null pointer; the result
is the return value and the bytes stored before the terminating NUL. The local
`uc` is uninitialised in the source and never read before it is assigned
(`utf8_to_win1251_loop_uc`); here it starts as 0. -/
def utf8_to_win1251 (text : List Nat) (behind : Nat → Nat) (wtext : Option (List Nat)) :
    Int × Option (List Nat) :=
  match wtext with
  | none => (0, none)
  | some _ => (1, some (utf8_to_win1251_loop behind text.length text 0))

/-- The C string held in a buffer: the bytes before the first NUL. -/
def cstr (buf : List Nat) : List Nat :=
  buf.takeWhile (fun b => b != 0)

/-! ## Input handling -/

/-- The tail of `OnKeyPress` after a character was appended (lines 292-296):
"if the new string is too long, remove the new character", then
`MarkChanged(); return true;`. -/
def afterAppend (c : Collab) (w : GUITextBox) : Bool × GUITextBox :=
  if c.get_text_width w._text w._font > w._width - (6 + c.get_fixed_pixel_size 5) then
    (true, MarkChanged { w with _text := Backspace c w._text })
  else
    (true, MarkChanged w)

/-- `GUITextBox::OnKeyPress`: the handled flag and the new state. `str` is
the local buffer the transcoder fills, `Append(str)` appends the C string in
it, and `AppendChar(static_cast<uint8_t>(ki.UChar))` appends the low byte. -/
def OnKeyPress (c : Collab) (w : GUITextBox) (ki : KeyInput) : Bool × GUITextBox :=
  match ki.Key with
  | eAGSKeyCode.eAGSKeyCodeReturn => (true, { w with _isActivated := true })
  | eAGSKeyCode.eAGSKeyCodeBackspace =>
    (true, MarkChanged { w with _text := Backspace c w._text })
  | eAGSKeyCode.eAGSKeyCodeOther _ =>
    if ki.UChar > 256 then
      let str := (utf8_to_win1251 ki.Text ki.TextBehind (some [])).2.getD []
      (true, MarkChanged { w with _text := w._text ++ cstr str })
    else if ki.UChar = 0 then (false, w)
    else if c.get_uformat = UFormat.U_UTF8 then
      afterAppend c { w with _text := w._text ++ ki.Text }
    else if ki.UChar < 256 then
      afterAppend c { w with _text := w._text ++ [ki.UChar % 256] }
    else (true, w)

/-! ## Serialization -/

/-- The 32-bit pattern of an `int`. -/
def toUInt32 (v : Int) : Nat :=
  (v % 4294967296).toNat

/-- The `int` held by a 32-bit pattern (two's complement). -/
def ofUInt32 (u : Nat) : Int :=
  if u % 4294967296 < 2147483648 then ((u % 4294967296 : Nat) : Int)
  else ((u % 4294967296 : Nat) : Int) - 4294967296

/-- Modelled from the spec: `Stream::WriteInt32` (util/stream.h is not among
the sources); "32-bit little-endian int read/write". -/
def WriteInt32 (v : Int) : List Nat :=
  let u := toUInt32 v
  [u % 256, u / 256 % 256, u / 65536 % 256, u / 16777216 % 256]

/-- Modelled from the spec: `Stream::ReadInt32`; fails when fewer than four
bytes are left. -/
def ReadInt32 : List Nat → Option (Int × List Nat)
  | b0 :: b1 :: b2 :: b3 :: rest =>
    some (ofUInt32 (b0 % 256 + 256 * (b1 % 256) + 65536 * (b2 % 256) + 16777216 * (b3 % 256)), rest)
  | _ => none

/-- Modelled from the spec: `StrUtil::WriteString` (util/string_utils.h is
not among the sources); "a 32-bit byte length followed by the raw bytes, no
terminator". -/
def WriteString (s : List Nat) : List Nat :=
  WriteInt32 (s.length : Int) ++ s

/-- Modelled from the spec: `StrUtil::ReadString`, the reader of the
length-prefixed string; fails when the stream ends early. -/
def ReadString (inp : List Nat) : Option (List Nat × List Nat) :=
  match ReadInt32 inp with
  | none => none
  | some (len, rest) =>
    if len.toNat ≤ rest.length then some (rest.take len.toNat, rest.drop len.toNat)
    else none

/-- Modelled from the spec: `String::ReadCount(in, count)`, the "fixed-length
NUL-terminated buffer read": `count` bytes are consumed and the text is what
stands before the first NUL. -/
def ReadCount (inp : List Nat) (count : Nat) : Option (List Nat × List Nat) :=
  if count ≤ inp.length then some (cstr (inp.take count), inp.drop count) else none

/-- The constant `GUITEXTBOX_LEGACY_TEXTLEN`. -/
def GUITEXTBOX_LEGACY_TEXTLEN : Nat := 200

/-- `GUITextBox::WriteToFile`: the bytes written to `out`. -/
def WriteToFile (base : BaseSerial) (w : GUITextBox) : List Nat :=
  base.WriteToFile w.toGUIObject
    ++ WriteString w._text
    ++ WriteInt32 w._font
    ++ WriteInt32 w._textColor
    ++ WriteInt32 (w._textBoxFlags : Int)

/-- `GUITextBox::ReadFromFile`: the loaded state and the unread rest of `in`. -/
def ReadFromFile (d : Decls) (base : BaseSerial) (w : GUITextBox) (inp : List Nat)
    (gui_version : Int) : Option (GUITextBox × List Nat) :=
  match base.ReadFromFile w.toGUIObject inp gui_version with
  | none => none
  | some (o, in1) =>
    match (if gui_version < d.kGuiVersion_350 then ReadCount in1 GUITEXTBOX_LEGACY_TEXTLEN
           else ReadString in1) with
    | none => none
    | some (text, in2) =>
      match ReadInt32 in2 with
      | none => none
      | some (font, in3) =>
        match ReadInt32 in3 with
        | none => none
        | some (color, in4) =>
          match ReadInt32 in4 with
          | none => none
          | some (flags, in5) =>
            let flags1 : Nat :=
              if gui_version < d.kGuiVersion_350 then toUInt32 flags ^^^ d.kTextBox_OldFmtXorMask
              else toUInt32 flags
            let color1 : Int := if color = 0 then 16 else color
            some ({ toGUIObject := o, _text := text, _font := font, _textColor := color1,
                    _textBoxFlags := flags1, _isActivated := w._isActivated }, in5)

/-- `GUITextBox::WriteToSavegame`: the bytes written to `out`. -/
def WriteToSavegame (base : BaseSerial) (w : GUITextBox) : List Nat :=
  base.WriteToSavegame w.toGUIObject
    ++ WriteInt32 w._font
    ++ WriteInt32 w._textColor
    ++ WriteString w._text
    ++ WriteInt32 (w._textBoxFlags : Int)

/-- `GUITextBox::ReadFromSavegame`: the loaded state and the unread rest. -/
def ReadFromSavegame (d : Decls) (base : BaseSerial) (w : GUITextBox) (inp : List Nat)
    (svg_ver : Int) : Option (GUITextBox × List Nat) :=
  match base.ReadFromSavegame w.toGUIObject inp svg_ver with
  | none => none
  | some (o, in1) =>
    match ReadInt32 in1 with
    | none => none
    | some (font, in2) =>
      match ReadInt32 in2 with
      | none => none
      | some (color, in3) =>
        match ReadString in3 with
        | none => none
        | some (text, in4) =>
          if svg_ver ≥ d.kGuiSvgVersion_350 then
            match ReadInt32 in4 with
            | none => none
            | some (flags, in5) =>
              some ({ toGUIObject := o, _text := text, _font := font, _textColor := color,
                      _textBoxFlags := toUInt32 flags, _isActivated := w._isActivated }, in5)
          else
            some ({ toGUIObject := o, _text := text, _font := font, _textColor := color,
                    _textBoxFlags := w._textBoxFlags, _isActivated := w._isActivated }, in4)

/-! ## Reference definitions used to state the properties -/

/-- Standard (shortest-form) UTF-8 encoding of a code point. -/
def utf8Encode (cp : Nat) : List Nat :=
  if cp < 0x80 then [cp]
  else if cp < 0x800 then [0xC0 + cp / 64, 0x80 + cp % 64]
  else if cp < 0x10000 then [0xE0 + cp / 4096, 0x80 + cp / 64 % 64, 0x80 + cp % 64]
  else [0xF0 + cp / 262144, 0x80 + cp / 4096 % 64, 0x80 + cp / 64 % 64, 0x80 + cp % 64]

/-- UTF-8 encoding of a sequence of code points. -/
def utf8EncodeAll : List Nat → List Nat
  | [] => []
  | cp :: cps => utf8Encode cp ++ utf8EncodeAll cps

/-- The byte the specification assigns to a code point (section 4.7, step
2): ASCII is kept, the two Cyrillic ranges are shifted, a table entry at index
`k` gives `0x80 + k`, anything else gives `'?'`. -/
def win1251_of_codepoint (cp : Nat) : Nat :=
  if cp ≤ 0x7F then cp
  else if 0x0410 ≤ cp ∧ cp ≤ 0x042F then cp - 0x0410 + 0xC0
  else if 0x0430 ≤ cp ∧ cp ≤ 0x044F then cp - 0x0430 + 0xE0
  else if (cp : Int) ∈ wtable then 0x80 + wtable.indexOf (cp : Int)
  else 0x3F

/-- The right-side limit of the rendered text, `_width - (6 + get_fixed_pixel_size(5))`. -/
def widthLimit (c : Collab) (w : GUITextBox) : Int :=
  w._width - (6 + c.get_fixed_pixel_size 5)

/-- Whether the text of the control fits its width limit. -/
def fitsWidth (c : Collab) (w : GUITextBox) : Prop :=
  c.get_text_width w._text w._font ≤ widthLimit c w

instance (c : Collab) (w : GUITextBox) : Decidable (fitsWidth c w) := by
  unfold fitsWidth
  infer_instance

/-- The fields of a state fit their C types: `_font` and `_textColor` are
32-bit `int`s, `_textBoxFlags` is a 32-bit word, and the length of the text
fits the 32-bit length field of the stream format. -/
def GUITextBox.fitsTypes (w : GUITextBox) : Prop :=
  -2147483648 ≤ w._font ∧ w._font < 2147483648 ∧
  -2147483648 ≤ w._textColor ∧ w._textColor < 2147483648 ∧
  w._textBoxFlags < 4294967296 ∧ w._text.length < 2147483648

instance (w : GUITextBox) : Decidable w.fitsTypes := by
  unfold GUITextBox.fitsTypes
  infer_instance

/-- Contract of the base class for the authored format at version `v`: its
reader consumes exactly the bytes its writer emitted. -/
def BaseSerial.fileRoundTrip (base : BaseSerial) (v : Int) : Prop :=
  ∀ (o o0 : GUIObject) (rest : List Nat),
    ∃ o1, base.ReadFromFile o0 (base.WriteToFile o ++ rest) v = some (o1, rest)

/-- Contract of the base class for the savegame format at version `v`: its
reader consumes exactly the bytes its writer emitted. -/
def BaseSerial.savegameRoundTrip (base : BaseSerial) (v : Int) : Prop :=
  ∀ (o o0 : GUIObject) (rest : List Nat),
    ∃ o1, base.ReadFromSavegame o0 (base.WriteToSavegame o ++ rest) v = some (o1, rest)

/-- The operations of the control that change its state: a key press and the
four setters. -/
inductive Operation where
  | keyPress (ki : KeyInput)
  | setFont (font : Int)
  | setTextColor (color : Int)
  | setText (text : List Nat)
  | setShowBorder (on_ : Bool)

/-- The state after one operation, under the collaborators current at the
time of the call. -/
def applyOperation (d : Decls) (w : GUITextBox) (step : Collab × Operation) : GUITextBox :=
  match step.2 with
  | Operation.keyPress ki => (OnKeyPress step.1 w ki).2
  | Operation.setFont font => SetFont w font
  | Operation.setTextColor color => SetTextColor w color
  | Operation.setText text => SetText w text
  | Operation.setShowBorder b => SetShowBorder d w b

/-- The state after a sequence of operations; the encoding mode and the
metrics may change between operations. -/
def runOperations (d : Decls) (w : GUITextBox) (steps : List (Collab × Operation)) :
    GUITextBox :=
  steps.foldl (applyOperation d) w

/-- The state after `n` presses of the same key. -/
def pressTimes (c : Collab) (ki : KeyInput) : Nat → GUITextBox → GUITextBox
  | 0, w => w
  | n + 1, w => (OnKeyPress c (pressTimes c ki n w) ki).2

/-! ## Sample data -/

/-- Metrics of the scenarios: 6 pixels per byte, scale factor 1. -/
def sampleCollab (fmt : UFormat) : Collab :=
  { get_uformat := fmt
    get_text_width := fun text _ => 6 * (text.length : Int)
    get_fixed_pixel_size := fun n => n }

/-- Header constants as in the engine: the border bit is bit 0, the legacy
mask flips it; version 3.5.0 of the two formats. -/
def sampleDecls : Decls :=
  { kTextBox_ShowBorder := 1
    kTextBox_OldFmtXorMask := 1
    kGuiVersion_350 := 119
    kGuiSvgVersion_350 := 1 }

/-- A base class that serializes nothing. -/
def emptyBase : BaseSerial :=
  { WriteToFile := fun _ => []
    ReadFromFile := fun o inp _ => some (o, inp)
    WriteToSavegame := fun _ => []
    ReadFromSavegame := fun o inp _ => some (o, inp) }

/-- A text box of width 100 with the given text. -/
def sampleBox (text : List Nat) : GUITextBox :=
  { _width := 100, _hasChanged := false, _text := text, _font := 0, _textColor := 16,
    _textBoxFlags := 1, _isActivated := false }

/-- The widget of the authored round-trip scenario: text "go", font 3, colour
7, border shown. -/
def sampleGo : GUITextBox :=
  { sampleBox [0x67, 0x6F] with _font := 3, _textColor := 7 }

/-- The scenario widget with the colour left unset (0). -/
def sampleColourZero : GUITextBox :=
  { sampleGo with _textColor := 0 }

/-- The scenario widget with colour 0 and the font number -1. -/
def sampleSaved : GUITextBox :=
  { sampleGo with _textColor := 0, _font := -1 }

/-- A text box of width 0 with the given text. -/
def narrowBox (text : List Nat) : GUITextBox :=
  { sampleBox text with _width := 0 }

/-- The key event of a character: an ordinary key code, the character value
and its UTF-8 bytes. -/
def charKey (cp : Nat) : KeyInput :=
  { Key := eAGSKeyCode.eAGSKeyCodeOther cp, UChar := cp, Text := utf8Encode cp,
    TextBehind := fun _ => 0 }

/-- The Backspace key event. -/
def backspaceKey : KeyInput :=
  { Key := eAGSKeyCode.eAGSKeyCodeBackspace, UChar := 8, Text := [8], TextBehind := fun _ => 0 }

/-- Memory that holds the given bytes and zeros after them. -/
def bytesThenZeros (l : List Nat) : Nat → Nat :=
  fun j => l.getD j 0

/-- A text of `n` letters 'a'. -/
def letters (n : Nat) : List Nat :=
  List.replicate n 0x61

/-- A legacy authored stream for an empty base: the 200-byte text buffer
holding "go", then font 3, colour 0 and flag word 0. -/
def legacyStream : List Nat :=
  [0x67, 0x6F] ++ List.replicate 198 0 ++ WriteInt32 3 ++ WriteInt32 0 ++ WriteInt32 0

/-- A savegame stream for an empty base: font 2, colour 5, text "go", then
two more bytes. -/
def oldSavegameStream : List Nat :=
  WriteInt32 2 ++ WriteInt32 5 ++ WriteString [0x67, 0x6F] ++ [9, 0, 0, 0]

/-! ## Setters -/

/-- C5: each of SetFont, SetTextColor and SetText, called with the current
value, leaves the whole state unchanged (the dirty flag is not set); called
with a different value it stores the value, sets the dirty flag and leaves
the remaining attributes unchanged. -/
theorem setters_compare_assign_mark (w : GUITextBox) (font color : Int) (text : List Nat) :
    (font = w._font → SetFont w font = w) ∧
    (font ≠ w._font →
      (SetFont w font)._font = font ∧ (SetFont w font)._hasChanged = true ∧
      (SetFont w font)._text = w._text ∧ (SetFont w font)._textColor = w._textColor ∧
      (SetFont w font)._textBoxFlags = w._textBoxFlags ∧
      (SetFont w font)._isActivated = w._isActivated) ∧
    (color = w._textColor → SetTextColor w color = w) ∧
    (color ≠ w._textColor →
      (SetTextColor w color)._textColor = color ∧ (SetTextColor w color)._hasChanged = true ∧
      (SetTextColor w color)._text = w._text ∧ (SetTextColor w color)._font = w._font ∧
      (SetTextColor w color)._textBoxFlags = w._textBoxFlags ∧
      (SetTextColor w color)._isActivated = w._isActivated) ∧
    (text = w._text → SetText w text = w) ∧
    (text ≠ w._text →
      (SetText w text)._text = text ∧ (SetText w text)._hasChanged = true ∧
      (SetText w text)._font = w._font ∧ (SetText w text)._textColor = w._textColor ∧
      (SetText w text)._textBoxFlags = w._textBoxFlags ∧
      (SetText w text)._isActivated = w._isActivated) := by
  refine ⟨?_, ?_, ?_, ?_, ?_, ?_⟩
  · intro h
    simp [SetFont, h]
  · intro h
    have h1 : ¬ w._font = font := fun e => h e.symm
    simp [SetFont, MarkChanged, h1]
  · intro h
    simp [SetTextColor, h]
  · intro h
    have h1 : ¬ w._textColor = color := fun e => h e.symm
    simp [SetTextColor, MarkChanged, h1]
  · intro h
    simp [SetText, h]
  · intro h
    have h1 : ¬ w._text = text := fun e => h e.symm
    simp [SetText, MarkChanged, h1]

/-- Witness of C5 on a clean box with text "hi", font 0, colour 16: the three
no-op calls and the three changing calls. -/
theorem setters_compare_assign_mark_witness :
    SetFont (sampleBox [0x68, 0x69]) 0 = sampleBox [0x68, 0x69] ∧
    (SetFont (sampleBox [0x68, 0x69]) 3)._hasChanged = true ∧
    SetTextColor (sampleBox [0x68, 0x69]) 16 = sampleBox [0x68, 0x69] ∧
    (SetTextColor (sampleBox [0x68, 0x69]) 7)._hasChanged = true ∧
    SetText (sampleBox [0x68, 0x69]) [0x68, 0x69] = sampleBox [0x68, 0x69] ∧
    (SetText (sampleBox [0x68, 0x69]) [0x61])._hasChanged = true :=
  have h := setters_compare_assign_mark (sampleBox [0x68, 0x69]) 3 7 [0x61]
  have h0 := setters_compare_assign_mark (sampleBox [0x68, 0x69]) 0 16 [0x68, 0x69]
  ⟨h0.1 rfl, (h.2.1 (by decide)).2.1, h0.2.2.1 rfl, (h.2.2.2.1 (by decide)).2.1,
    h0.2.2.2.2.1 rfl, (h.2.2.2.2.2 (by decide)).2.1⟩

/-- C6 (the code departs from it): SetShowBorder never touches the dirty
flag, whatever the state and the argument; on a clean box without border,
SetShowBorder(true) turns the border on and leaves the box clean. -/
theorem SetShowBorder_leaves_dirty_flag :
    (∀ (d : Decls) (w : GUITextBox) (b : Bool),
      (SetShowBorder d w b)._hasChanged = w._hasChanged) ∧
    IsBorderShown sampleDecls { sampleBox [] with _textBoxFlags := 0 } = false ∧
    IsBorderShown sampleDecls
      (SetShowBorder sampleDecls { sampleBox [] with _textBoxFlags := 0 } true) = true ∧
    (SetShowBorder sampleDecls { sampleBox [] with _textBoxFlags := 0 } true)._hasChanged
      = false := by
  refine ⟨?_, by decide, by decide, by decide⟩
  intro d w b
  cases b <;> simp [SetShowBorder]

/-! ## Key handling: Return and unhandled events -/

/-- C7: a key event whose key code is Return is handled, sets the activation
latch, leaves text, font, colour, flags and the dirty flag as they were, and a
second Return keeps the latch set. -/
theorem OnKeyPress_Return (c : Collab) (w : GUITextBox) (ki : KeyInput)
    (hkey : ki.Key = eAGSKeyCode.eAGSKeyCodeReturn) :
    (OnKeyPress c w ki).1 = true ∧
    (OnKeyPress c w ki).2._isActivated = true ∧
    (OnKeyPress c w ki).2._text = w._text ∧
    (OnKeyPress c w ki).2._font = w._font ∧
    (OnKeyPress c w ki).2._textColor = w._textColor ∧
    (OnKeyPress c w ki).2._textBoxFlags = w._textBoxFlags ∧
    (OnKeyPress c w ki).2._hasChanged = w._hasChanged ∧
    (OnKeyPress c (OnKeyPress c w ki).2 ki).2._isActivated = true := by
  simp [OnKeyPress, hkey]

/-- Witness of C7: text "hi", Return (with a stray character value and text):
handled, activated, text still "hi". -/
theorem OnKeyPress_Return_witness :
    (OnKeyPress (sampleCollab UFormat.U_UTF8) (sampleBox [0x68, 0x69])
      ⟨eAGSKeyCode.eAGSKeyCodeReturn, 13, [13], fun _ => 0⟩).1 = true ∧
    (OnKeyPress (sampleCollab UFormat.U_UTF8) (sampleBox [0x68, 0x69])
      ⟨eAGSKeyCode.eAGSKeyCodeReturn, 13, [13], fun _ => 0⟩).2._isActivated = true ∧
    (OnKeyPress (sampleCollab UFormat.U_UTF8) (sampleBox [0x68, 0x69])
      ⟨eAGSKeyCode.eAGSKeyCodeReturn, 13, [13], fun _ => 0⟩).2._text = [0x68, 0x69] :=
  have h := OnKeyPress_Return (sampleCollab UFormat.U_UTF8) (sampleBox [0x68, 0x69])
    ⟨eAGSKeyCode.eAGSKeyCodeReturn, 13, [13], fun _ => 0⟩ rfl
  ⟨h.1, h.2.1, h.2.2.1⟩

/-- C8: OnKeyPress reports "not handled" exactly when the key code is
neither Return nor Backspace and the character value is 0; then the whole
state is unchanged. Every other event is reported as handled. -/
theorem OnKeyPress_not_handled_iff (c : Collab) (w : GUITextBox) (ki : KeyInput) :
    ((OnKeyPress c w ki).1 = false ↔
      (ki.Key ≠ eAGSKeyCode.eAGSKeyCodeReturn ∧ ki.Key ≠ eAGSKeyCode.eAGSKeyCodeBackspace ∧
        ki.UChar = 0)) ∧
    ((OnKeyPress c w ki).1 = false → (OnKeyPress c w ki).2 = w) ∧
    (¬ (ki.Key ≠ eAGSKeyCode.eAGSKeyCodeReturn ∧ ki.Key ≠ eAGSKeyCode.eAGSKeyCodeBackspace ∧
        ki.UChar = 0) → (OnKeyPress c w ki).1 = true) := by
  obtain ⟨key, uchar, text, behind⟩ := ki
  cases key with
  | eAGSKeyCodeReturn => simp [OnKeyPress]
  | eAGSKeyCodeBackspace => simp [OnKeyPress]
  | eAGSKeyCodeOther code =>
    by_cases h1 : uchar > 256
    · have h0 : uchar ≠ 0 := by omega
      simp [OnKeyPress, h1, h0]
    · by_cases h0 : uchar = 0
      · simp [OnKeyPress, h0]
      · by_cases h2 : c.get_uformat = UFormat.U_UTF8
        · simp only [OnKeyPress, afterAppend, h1, h0, h2]
          split_ifs <;> simp
        · by_cases h3 : uchar < 256
          · simp only [OnKeyPress, afterAppend, h1, h0, h2, h3]
            split_ifs <;> simp
          · simp [OnKeyPress, h1, h0, h2, h3]

/-- Witness of C8: an arrow-like key without character value is not handled
and changes nothing; the same key with character value 'a' is handled. -/
theorem OnKeyPress_not_handled_iff_witness :
    OnKeyPress (sampleCollab UFormat.U_UTF8) (sampleBox [0x68, 0x69])
      ⟨eAGSKeyCode.eAGSKeyCodeOther 380, 0, [], fun _ => 0⟩ = (false, sampleBox [0x68, 0x69]) ∧
    (OnKeyPress (sampleCollab UFormat.U_UTF8) (sampleBox [0x68, 0x69])
      ⟨eAGSKeyCode.eAGSKeyCodeOther 97, 97, [97], fun _ => 0⟩).1 = true :=
  have h := OnKeyPress_not_handled_iff (sampleCollab UFormat.U_UTF8) (sampleBox [0x68, 0x69])
    ⟨eAGSKeyCode.eAGSKeyCodeOther 380, 0, [], fun _ => 0⟩
  have h1 := OnKeyPress_not_handled_iff (sampleCollab UFormat.U_UTF8) (sampleBox [0x68, 0x69])
    ⟨eAGSKeyCode.eAGSKeyCodeOther 97, 97, [97], fun _ => 0⟩
  have hf := h.1.2 ⟨by decide, by decide, rfl⟩
  ⟨Prod.ext hf (h.2.1 hf), h1.2.2 (by decide)⟩

/-! ## Serialization -/

theorem toUInt32_lt (v : Int) : toUInt32 v < 4294967296 := by
  unfold toUInt32
  omega

theorem le_bytes_sum (u : Nat) (h : u < 4294967296) :
    u % 256 % 256 + 256 * (u / 256 % 256 % 256) + 65536 * (u / 65536 % 256 % 256)
      + 16777216 * (u / 16777216 % 256 % 256) = u := by
  omega

theorem ofUInt32_toUInt32 (v : Int) (h1 : -2147483648 ≤ v) (h2 : v < 2147483648) :
    ofUInt32 (toUInt32 v) = v := by
  unfold ofUInt32 toUInt32
  split <;> omega

theorem toUInt32_ofUInt32_natCast (u : Nat) (h : u < 4294967296) :
    toUInt32 (ofUInt32 (toUInt32 (u : Int))) = u := by
  unfold ofUInt32 toUInt32
  split <;> omega

/-- Reading back a written 32-bit integer gives the `int` with the same
32-bit pattern and leaves the rest of the stream. -/
theorem ReadInt32_WriteInt32_pattern (v : Int) (rest : List Nat) :
    ReadInt32 (WriteInt32 v ++ rest) = some (ofUInt32 (toUInt32 v), rest) := by
  simp only [WriteInt32, ReadInt32, List.cons_append, List.nil_append]
  rw [le_bytes_sum _ (toUInt32_lt v)]

theorem ReadInt32_WriteInt32 (v : Int) (rest : List Nat)
    (h1 : -2147483648 ≤ v) (h2 : v < 2147483648) :
    ReadInt32 (WriteInt32 v ++ rest) = some (v, rest) := by
  rw [ReadInt32_WriteInt32_pattern, ofUInt32_toUInt32 v h1 h2]

theorem ReadString_WriteString (s rest : List Nat) (h : s.length < 2147483648) :
    ReadString (WriteString s ++ rest) = some (s, rest) := by
  unfold ReadString WriteString
  rw [List.append_assoc, ReadInt32_WriteInt32 _ _ (by omega) (by omega)]
  simp

/-- C3 (as amended): at a version of the current format, reading what
WriteToFile wrote consumes exactly those bytes and restores text, font and
flags; the colour is restored too unless it was 0, which is loaded as 16. -/
theorem ReadFromFile_WriteToFile (d : Decls) (base : BaseSerial) (w w0 : GUITextBox)
    (gui_version : Int) (rest : List Nat)
    (hver : gui_version ≥ d.kGuiVersion_350) (hbase : base.fileRoundTrip gui_version)
    (hw : w.fitsTypes) :
    ∃ r, ReadFromFile d base w0 (WriteToFile base w ++ rest) gui_version = some (r, rest) ∧
      r._text = w._text ∧ r._font = w._font ∧
      r._textColor = (if w._textColor = 0 then 16 else w._textColor) ∧
      r._textBoxFlags = w._textBoxFlags := by
  obtain ⟨hf1, hf2, hc1, hc2, hfl, hlen⟩ := hw
  obtain ⟨o1, ho1⟩ := hbase w.toGUIObject w0.toGUIObject
    (WriteString w._text ++ (WriteInt32 w._font ++ (WriteInt32 w._textColor ++
      (WriteInt32 (w._textBoxFlags : Int) ++ rest))))
  have hnot : ¬ gui_version < d.kGuiVersion_350 := by omega
  simp only [ReadFromFile, WriteToFile, List.append_assoc, ho1, hnot, if_false,
    ReadString_WriteString _ _ hlen, ReadInt32_WriteInt32 _ _ hf1 hf2,
    ReadInt32_WriteInt32 _ _ hc1 hc2, ReadInt32_WriteInt32_pattern,
    toUInt32_ofUInt32_natCast _ hfl]
  exact ⟨_, rfl, rfl, rfl, rfl, rfl⟩

/-- Witness of C3 (as amended): the scenario widget, text "go", font 3,
colour 7, border shown, written and read at version 3.5.0. -/
theorem ReadFromFile_WriteToFile_witness :
    sampleDecls.kGuiVersion_350 ≤ 119 ∧ sampleGo.fitsTypes ∧
    ∃ r, ReadFromFile sampleDecls emptyBase (sampleBox []) (WriteToFile emptyBase sampleGo ++ [])
        119 = some (r, []) ∧
      r._text = sampleGo._text ∧ r._font = sampleGo._font ∧
      r._textColor = (if sampleGo._textColor = 0 then 16 else sampleGo._textColor) ∧
      r._textBoxFlags = sampleGo._textBoxFlags :=
  ⟨by decide, by decide,
    ReadFromFile_WriteToFile sampleDecls emptyBase sampleGo (sampleBox []) 119 [] (by decide)
      (fun _ o0 rest => ⟨o0, rfl⟩) (by decide)⟩

/-- C3 fails as stated: a widget whose colour is 0, written and read back at
the current version, comes back with colour 16. -/
theorem ReadFromFile_WriteToFile_colour_zero :
    sampleColourZero.fitsTypes ∧ sampleColourZero._textColor = 0 ∧
    ∃ r, ReadFromFile sampleDecls emptyBase (sampleBox [])
        (WriteToFile emptyBase sampleColourZero) 119 = some (r, []) ∧
      r._textColor = 16 ∧ r._textColor ≠ sampleColourZero._textColor :=
  ⟨by decide, rfl, { sampleGo with _textColor := 16 }, by decide, rfl, by decide⟩

/-- C4: at a savegame version of 3.5.0 or later, reading what
WriteToSavegame wrote consumes exactly those bytes and restores font, colour,
text and flags. -/
theorem ReadFromSavegame_WriteToSavegame (d : Decls) (base : BaseSerial) (w w0 : GUITextBox)
    (svg_ver : Int) (rest : List Nat)
    (hver : svg_ver ≥ d.kGuiSvgVersion_350) (hbase : base.savegameRoundTrip svg_ver)
    (hw : w.fitsTypes) :
    ∃ r, ReadFromSavegame d base w0 (WriteToSavegame base w ++ rest) svg_ver = some (r, rest) ∧
      r._font = w._font ∧ r._textColor = w._textColor ∧ r._text = w._text ∧
      r._textBoxFlags = w._textBoxFlags := by
  obtain ⟨hf1, hf2, hc1, hc2, hfl, hlen⟩ := hw
  obtain ⟨o1, ho1⟩ := hbase w.toGUIObject w0.toGUIObject
    (WriteInt32 w._font ++ (WriteInt32 w._textColor ++ (WriteString w._text ++
      (WriteInt32 (w._textBoxFlags : Int) ++ rest))))
  simp only [ReadFromSavegame, WriteToSavegame, List.append_assoc, ho1, hver, if_true,
    ReadString_WriteString _ _ hlen, ReadInt32_WriteInt32 _ _ hf1 hf2,
    ReadInt32_WriteInt32 _ _ hc1 hc2, ReadInt32_WriteInt32_pattern,
    toUInt32_ofUInt32_natCast _ hfl]
  exact ⟨_, rfl, rfl, rfl, rfl, rfl⟩

/-- Witness of C4: a widget with colour 0 and negative font number, followed
in the stream by two more bytes, which are left unread. -/
theorem ReadFromSavegame_WriteToSavegame_witness :
    sampleDecls.kGuiSvgVersion_350 ≤ 1 ∧
    sampleSaved.fitsTypes ∧
    ∃ r, ReadFromSavegame sampleDecls emptyBase (sampleBox [])
        (WriteToSavegame emptyBase sampleSaved ++ [7, 7])
        1 = some (r, [7, 7]) ∧
      r._font = sampleSaved._font ∧ r._textColor = sampleSaved._textColor ∧
      r._text = sampleSaved._text ∧ r._textBoxFlags = sampleSaved._textBoxFlags :=
  ⟨by decide, by decide,
    ReadFromSavegame_WriteToSavegame sampleDecls emptyBase
      sampleSaved (sampleBox []) 1 [7, 7] (by decide)
      (fun _ o0 rest => ⟨o0, rfl⟩) (by decide)⟩

/-! ## The transcoder: shape of the output -/

theorem wtable_length : wtable.length = 64 := by decide

theorem wtable_search_eq (uc : Int) (l : List Int) (k : Nat) :
    wtable_search uc l k = k + l.indexOf uc := by
  induction l generalizing k with
  | nil => simp [wtable_search]
  | cons e es ih =>
    by_cases h : e = uc
    · simp [wtable_search, h]
    · simp [wtable_search, h, ih, List.indexOf_cons_ne _ h]
      omega

theorem toWin1251_range (uc : Int) : -1 ≤ toWin1251 uc ∧ toWin1251 uc ≤ 255 := by
  unfold toWin1251
  simp only
  split_ifs <;> omega

/-- Every byte the loop stores is in `1..255`. -/
theorem utf8_to_win1251_loop_bytes (behind : Nat → Nat) (fuel : Nat) (text : List Nat)
    (uc : Int) : ∀ b ∈ utf8_to_win1251_loop behind fuel text uc, 0 < b ∧ b < 256 := by
  induction fuel generalizing text uc with
  | zero => simp [utf8_to_win1251_loop]
  | succ fuel ih =>
    cases text with
    | nil => simp [utf8_to_win1251_loop]
    | cons b0 rest =>
      rw [utf8_to_win1251_loop]
      intro b hb
      have hr := toWin1251_range (readUnicodeChar behind b0 rest uc).2
      split at hb
      · rcases List.mem_cons.mp hb with h | h
        · subst h
          omega
        · exact ih _ _ b h
      · exact ih _ _ b hb

/-- What is left of the string after a sequence is no longer than what was
left after its first byte. -/
theorem readUnicodeChar_length (behind : Nat → Nat) (b : Nat) (rest : List Nat) (uc : Int) :
    (readUnicodeChar behind b rest uc).1.length ≤ rest.length := by
  simp only [readUnicodeChar, List.length_drop]
  omega

theorem decodeLead_uc (wc uc uc1 : Int) :
    (decodeLead wc uc = (uc, -1) ∧ decodeLead wc uc1 = (uc1, -1)) ∨
      decodeLead wc uc = decodeLead wc uc1 := by
  unfold decodeLead
  split_ifs <;> simp

/-- The classification error branches leave `uc` as it was, but the code
point read does not depend on it. -/
theorem readUnicodeChar_uc (behind : Nat → Nat) (b : Nat) (rest : List Nat) (uc uc1 : Int) :
    readUnicodeChar behind b rest uc = readUnicodeChar behind b rest uc1 := by
  rcases decodeLead_uc ((b % 256 : Nat) : Int) uc uc1 with ⟨h1, h2⟩ | h
  · simp only [readUnicodeChar, h1, h2]
    simp [readContinuation]
  · simp only [readUnicodeChar, h]

/-- The output of the loop does not depend on the initial value of `uc`. -/
theorem utf8_to_win1251_loop_uc (behind : Nat → Nat) (fuel : Nat) (text : List Nat)
    (uc uc1 : Int) :
    utf8_to_win1251_loop behind fuel text uc = utf8_to_win1251_loop behind fuel text uc1 := by
  cases fuel with
  | zero => rfl
  | succ fuel =>
    cases text with
    | nil => rfl
    | cons b rest =>
      rw [utf8_to_win1251_loop, utf8_to_win1251_loop, readUnicodeChar_uc behind b rest uc uc1]

/-- The loop never runs out of fuel: with any fuel of at least `strlen(text)`
it gives the same output. -/
theorem utf8_to_win1251_loop_fuel (behind : Nat → Nat) (fuel : Nat) :
    ∀ (fuel1 : Nat) (text : List Nat) (uc : Int), text.length ≤ fuel → text.length ≤ fuel1 →
      utf8_to_win1251_loop behind fuel text uc = utf8_to_win1251_loop behind fuel1 text uc := by
  induction fuel with
  | zero =>
    intro fuel1 text uc h _
    have h0 : text = [] := List.length_eq_zero.mp (by omega)
    subst h0
    cases fuel1 <;> rfl
  | succ fuel ih =>
    intro fuel1 text uc h h1
    cases text with
    | nil => cases fuel1 <;> rfl
    | cons b rest =>
      cases fuel1 with
      | zero => simp at h1
      | succ fuel1 =>
        have hlen := readUnicodeChar_length behind b rest uc
        simp only [List.length_cons] at h h1
        rw [utf8_to_win1251_loop, utf8_to_win1251_loop,
          ih fuel1 (readUnicodeChar behind b rest uc).1 (readUnicodeChar behind b rest uc).2
            (by omega) (by omega)]

theorem cstr_utf8_to_win1251_loop (behind : Nat → Nat) (fuel : Nat) (text : List Nat)
    (uc : Int) :
    cstr (utf8_to_win1251_loop behind fuel text uc) = utf8_to_win1251_loop behind fuel text uc := by
  unfold cstr
  rw [List.takeWhile_eq_self_iff]
  intro b hb
  have h := utf8_to_win1251_loop_bytes behind fuel text uc b hb
  simp
  omega


theorem land_0x07 (a : Nat) : Int.land (a : Int) 0x07 = ((a % 8 : Nat) : Int) := by
  show ((a &&& 7 : Nat) : Int) = _
  rw [show (7 : Nat) = 2 ^ 3 - 1 from rfl, Nat.and_pow_two_sub_one_eq_mod]

theorem land_0x0F (a : Nat) : Int.land (a : Int) 0x0F = ((a % 16 : Nat) : Int) := by
  show ((a &&& 15 : Nat) : Int) = _
  rw [show (15 : Nat) = 2 ^ 4 - 1 from rfl, Nat.and_pow_two_sub_one_eq_mod]

theorem land_0x1F (a : Nat) : Int.land (a : Int) 0x1F = ((a % 32 : Nat) : Int) := by
  show ((a &&& 31 : Nat) : Int) = _
  rw [show (31 : Nat) = 2 ^ 5 - 1 from rfl, Nat.and_pow_two_sub_one_eq_mod]

theorem land_0x3F (a : Nat) : Int.land (a : Int) 0x3F = ((a % 64 : Nat) : Int) := by
  show ((a &&& 63 : Nat) : Int) = _
  rw [show (63 : Nat) = 2 ^ 6 - 1 from rfl, Nat.and_pow_two_sub_one_eq_mod]

theorem shiftLeft_6 (a : Nat) : ((a : Int) <<< 6) = ((a * 64 : Nat) : Int) := by
  show ((a <<< 6 : Nat) : Int) = _
  rw [Nat.shiftLeft_eq]

theorem decodeLead_natCast (b : Nat) (uc : Int) :
    decodeLead (b : Int) uc =
      if b ≥ 0xF8 then (uc, -1)
      else if b ≥ 0xF0 then (((b % 8 : Nat) : Int), 3)
      else if b ≥ 0xE0 then (((b % 16 : Nat) : Int), 2)
      else if b ≥ 0xC0 then (((b % 32 : Nat) : Int), 1)
      else if b ≤ 0x7F then ((b : Int), 0)
      else (uc, -1) := by
  unfold decodeLead
  rw [land_0x07, land_0x0F, land_0x1F]
  split_ifs <;> first | rfl | omega

theorem memAt_cons_zero (a : Nat) (l : List Nat) (behind : Nat → Nat) :
    memAt (a :: l) behind 0 = a := by
  simp [memAt]

theorem memAt_cons_succ (a : Nat) (l : List Nat) (behind : Nat → Nat) (i : Nat) :
    memAt (a :: l) behind (i + 1) = memAt l behind i := by
  unfold memAt
  by_cases h : i < l.length
  · simp [h]
  · by_cases h1 : i = l.length
    · simp [h1]
    · simp [h, h1]

/-- One round of continuation reading on a well-formed continuation byte. -/
theorem readContinuation_succ (n x : Nat) (mem : Nat → Nat) (i : Nat) (acc : Nat) (wc : Int)
    (hwc : wc ≤ 0xBF) (hx : x < 64) (hmem : mem i = 0x80 + x) :
    readContinuation (n + 1) mem i (acc : Int) wc =
      readContinuation n mem (i + 1) ((acc * 64 + x : Nat) : Int) ((0x80 + x : Nat) : Int) := by
  have hb : (0x80 + x) % 256 = 0x80 + x := by omega
  have h64 : (0x80 + x) % 64 = x := by omega
  rw [readContinuation]
  simp only [hwc, if_true, readByte, hmem, hb, land_0x3F, shiftLeft_6, h64]
  push_cast
  rfl

theorem readContinuation_zero (mem : Nat → Nat) (i : Nat) (uc wc : Int) :
    readContinuation 0 mem i uc wc = (i, uc, wc) := rfl

theorem decodeLead_ascii (b : Nat) (uc : Int) (hb : b < 0x80) :
    decodeLead ((b % 256 : Nat) : Int) uc = ((b : Int), 0) := by
  have h : b % 256 = b := by omega
  rw [h, decodeLead_natCast]
  split_ifs <;> first | rfl | omega

theorem decodeLead_two (q : Nat) (uc : Int) (hq : q < 32) :
    decodeLead (((0xC0 + q) % 256 : Nat) : Int) uc = ((q : Int), 1) := by
  have h : (0xC0 + q) % 256 = 0xC0 + q := by omega
  have h32 : (0xC0 + q) % 32 = q := by omega
  rw [h, decodeLead_natCast]
  split_ifs <;> first | omega | rw [h32]

theorem decodeLead_three (q : Nat) (uc : Int) (hq : q < 16) :
    decodeLead (((0xE0 + q) % 256 : Nat) : Int) uc = ((q : Int), 2) := by
  have h : (0xE0 + q) % 256 = 0xE0 + q := by omega
  have h16 : (0xE0 + q) % 16 = q := by omega
  rw [h, decodeLead_natCast]
  split_ifs <;> first | omega | rw [h16]

theorem decodeLead_four (q : Nat) (uc : Int) (hq : q < 8) :
    decodeLead (((0xF0 + q) % 256 : Nat) : Int) uc = ((q : Int), 3) := by
  have h : (0xF0 + q) % 256 = 0xF0 + q := by omega
  have h8 : (0xF0 + q) % 8 = q := by omega
  rw [h, decodeLead_natCast]
  split_ifs <;> first | omega | rw [h8]

theorem readContinuation_one (x1 : Nat) (rest : List Nat) (behind : Nat → Nat) (acc : Nat)
    (h1 : x1 < 64) :
    readContinuation 1 (memAt ((0x80 + x1) :: rest) behind) 0 (acc : Int) 0 =
      (1, ((acc * 64 + x1 : Nat) : Int), ((0x80 + x1 : Nat) : Int)) := by
  rw [readContinuation_succ 0 x1 _ 0 acc 0 (by decide) h1 (memAt_cons_zero _ _ _),
    readContinuation_zero]

theorem readContinuation_two (x1 x2 : Nat) (rest : List Nat) (behind : Nat → Nat) (acc : Nat)
    (h1 : x1 < 64) (h2 : x2 < 64) :
    readContinuation 2 (memAt ((0x80 + x1) :: (0x80 + x2) :: rest) behind) 0 (acc : Int) 0 =
      (2, (((acc * 64 + x1) * 64 + x2 : Nat) : Int), ((0x80 + x2 : Nat) : Int)) := by
  rw [readContinuation_succ 1 x1 _ 0 acc 0 (by decide) h1 (memAt_cons_zero _ _ _),
    readContinuation_succ 0 x2 _ (0 + 1) _ _ (by omega) h2
      (by rw [memAt_cons_succ, memAt_cons_zero]),
    readContinuation_zero]

theorem readContinuation_three (x1 x2 x3 : Nat) (rest : List Nat) (behind : Nat → Nat)
    (acc : Nat) (h1 : x1 < 64) (h2 : x2 < 64) (h3 : x3 < 64) :
    readContinuation 3
        (memAt ((0x80 + x1) :: (0x80 + x2) :: (0x80 + x3) :: rest) behind) 0 (acc : Int) 0 =
      (3, ((((acc * 64 + x1) * 64 + x2) * 64 + x3 : Nat) : Int), ((0x80 + x3 : Nat) : Int)) := by
  rw [readContinuation_succ 2 x1 _ 0 acc 0 (by decide) h1 (memAt_cons_zero _ _ _),
    readContinuation_succ 1 x2 _ (0 + 1) _ _ (by omega) h2
      (by rw [memAt_cons_succ, memAt_cons_zero]),
    readContinuation_succ 0 x3 _ (0 + 1 + 1) _ _ (by omega) h3
      (by rw [memAt_cons_succ, memAt_cons_succ, memAt_cons_zero]),
    readContinuation_zero]

/-- Decoding the standard encoding of a code point gives the code point and
leaves the cursor right after the sequence, whatever the memory behind the
string holds. -/
theorem readUnicodeChar_utf8Encode (behind : Nat → Nat) (cp : Nat) (rest : List Nat) (uc : Int)
    (hcp : cp ≤ 0x10FFFF) :
    ∃ b bs, utf8Encode cp = b :: bs ∧
      readUnicodeChar behind b (bs ++ rest) uc = (rest, (cp : Int)) := by
  have hm : ∀ x : Nat, x % 64 < 64 := fun x => Nat.mod_lt _ (by decide)
  unfold utf8Encode
  by_cases h1 : cp < 0x80
  · refine ⟨cp, [], by simp [h1], ?_⟩
    simp only [readUnicodeChar, decodeLead_ascii cp uc h1, List.nil_append]
    simp [readContinuation_zero]
  · by_cases h2 : cp < 0x800
    · refine ⟨0xC0 + cp / 64, [0x80 + cp % 64], by simp [h1, h2], ?_⟩
      have h3 : cp / 64 * 64 + cp % 64 = cp := by omega
      have hlt : ¬ ((0x80 + cp % 64 : Nat) : Int) > 0xBF := by omega
      simp only [readUnicodeChar, decodeLead_two (cp / 64) uc (by omega),
        show ((1 : Int)).toNat = 1 from rfl, List.cons_append, List.nil_append,
        readContinuation_one _ _ _ _ (hm _), h3]
      simp [hlt]
      omega
    · by_cases h4 : cp < 0x10000
      · refine ⟨0xE0 + cp / 4096, [0x80 + cp / 64 % 64, 0x80 + cp % 64],
          by simp [h1, h2, h4], ?_⟩
        have h3 : (cp / 4096 * 64 + cp / 64 % 64) * 64 + cp % 64 = cp := by omega
        have hlt : ¬ ((0x80 + cp % 64 : Nat) : Int) > 0xBF := by omega
        simp only [readUnicodeChar, decodeLead_three (cp / 4096) uc (by omega),
          show ((2 : Int)).toNat = 2 from rfl, List.cons_append, List.nil_append,
          readContinuation_two _ _ _ _ _ (hm _) (hm _), h3]
        simp [hlt]
        omega
      · refine ⟨0xF0 + cp / 262144, [0x80 + cp / 4096 % 64, 0x80 + cp / 64 % 64, 0x80 + cp % 64],
          by simp [h1, h2, h4], ?_⟩
        have h3 : ((cp / 262144 * 64 + cp / 4096 % 64) * 64 + cp / 64 % 64) * 64 + cp % 64
            = cp := by omega
        have hlt : ¬ ((0x80 + cp % 64 : Nat) : Int) > 0xBF := by omega
        simp only [readUnicodeChar, decodeLead_four (cp / 262144) uc (by omega),
          show ((3 : Int)).toNat = 3 from rfl, List.cons_append, List.nil_append,
          readContinuation_three _ _ _ _ _ _ (hm _) (hm _) (hm _), h3]
        simp [hlt]
        omega

theorem toWin1251_natCast (cp : Nat) :
    toWin1251 (cp : Int) = ((win1251_of_codepoint cp : Nat) : Int) := by
  unfold toWin1251 win1251_of_codepoint
  simp only [wtable_search_eq, Nat.zero_add]
  have hidx : wtable.indexOf (cp : Int) < 64 ↔ (cp : Int) ∈ wtable := by
    rw [← wtable_length]
    exact List.indexOf_lt_length
  have hneg : ¬ (cp : Int) < 0 := by omega
  rw [if_neg hneg]
  by_cases h1 : cp ≤ 0x7F
  · have h1i : (cp : Int) ≤ 0x7F := by omega
    rw [if_pos h1, if_pos h1i]
  · have h1i : ¬ (cp : Int) ≤ 0x7F := by omega
    rw [if_neg h1, if_neg h1i]
    by_cases h2 : 0x0410 ≤ cp ∧ cp ≤ 0x042F
    · have h2i : (cp : Int) ≥ 0x0410 ∧ (cp : Int) ≤ 0x042F := by omega
      rw [if_pos h2, if_pos h2i]
      omega
    · have h2i : ¬ ((cp : Int) ≥ 0x0410 ∧ (cp : Int) ≤ 0x042F) := by omega
      rw [if_neg h2, if_neg h2i]
      by_cases h3 : 0x0430 ≤ cp ∧ cp ≤ 0x044F
      · have h3i : (cp : Int) ≥ 0x0430 ∧ (cp : Int) ≤ 0x044F := by omega
        rw [if_pos h3, if_pos h3i]
        omega
      · have h3i : ¬ ((cp : Int) ≥ 0x0430 ∧ (cp : Int) ≤ 0x044F) := by omega
        rw [if_neg h3, if_neg h3i]
        by_cases h4 : (cp : Int) ∈ wtable
        · rw [if_pos h4, if_pos (hidx.mpr h4)]
          omega
        · have h4i : ¬ wtable.indexOf (cp : Int) < 64 := fun h => h4 (hidx.mp h)
          rw [if_neg h4, if_neg h4i]
          rfl

theorem win1251_of_codepoint_pos (cp : Nat) (h : 1 ≤ cp) : 0 < win1251_of_codepoint cp := by
  unfold win1251_of_codepoint
  split_ifs <;> omega

theorem win1251_of_codepoint_lt (cp : Nat) : win1251_of_codepoint cp < 256 := by
  have h := (toWin1251_range (cp : Int)).2
  rw [toWin1251_natCast] at h
  omega

/-- One round of the loop on the standard encoding of a code point: one byte
is stored and the cursor moves past the sequence. -/
theorem utf8_to_win1251_loop_utf8Encode (behind : Nat → Nat) (fuel cp : Nat) (rest : List Nat)
    (uc : Int) (h1 : 1 ≤ cp) (h2 : cp ≤ 0x10FFFF) :
    utf8_to_win1251_loop behind (fuel + 1) (utf8Encode cp ++ rest) uc =
      win1251_of_codepoint cp :: utf8_to_win1251_loop behind fuel rest (cp : Int) := by
  obtain ⟨b, bs, he, hr⟩ := readUnicodeChar_utf8Encode behind cp rest uc h2
  have hpos := win1251_of_codepoint_pos cp h1
  have hlt := win1251_of_codepoint_lt cp
  rw [he, List.cons_append, utf8_to_win1251_loop]
  simp only [hr, toWin1251_natCast]
  rw [if_pos (by omega)]
  congr 1
  omega

theorem utf8Encode_length_pos (cp : Nat) : 1 ≤ (utf8Encode cp).length := by
  unfold utf8Encode
  split_ifs <;> simp

theorem utf8_to_win1251_loop_utf8EncodeAll (behind : Nat → Nat) (cps : List Nat) :
    ∀ (fuel : Nat) (uc : Int), (∀ cp ∈ cps, 1 ≤ cp ∧ cp ≤ 0x10FFFF) →
      (utf8EncodeAll cps).length ≤ fuel →
      utf8_to_win1251_loop behind fuel (utf8EncodeAll cps) uc
        = cps.map win1251_of_codepoint := by
  induction cps with
  | nil =>
    intro fuel uc _ _
    cases fuel <;> simp [utf8EncodeAll, utf8_to_win1251_loop]
  | cons cp tl ih =>
    intro fuel uc hall hfuel
    have hcp := hall cp (List.mem_cons_self _ _)
    have hlen := utf8Encode_length_pos cp
    simp only [utf8EncodeAll, List.length_append] at hfuel
    cases fuel with
    | zero => omega
    | succ fuel =>
      rw [utf8EncodeAll, utf8_to_win1251_loop_utf8Encode behind fuel cp _ uc hcp.1 hcp.2,
        ih fuel _ (fun x hx => hall x (List.mem_cons_of_mem _ hx)) (by omega)]
      rfl

/-- C10: on the standard UTF-8 encoding of code points in U+0001..U+10FFFF
the transcoder returns 1 and stores exactly one byte per code point, in
order, the byte the specification assigns to it, whatever the memory behind
the string holds; in particular every table entry other than index 24 is
stored as 0x80 plus its index. -/
theorem utf8_to_win1251_reference :
    (∀ (cps : List Nat) (behind : Nat → Nat) (buf : List Nat),
      (∀ cp ∈ cps, 1 ≤ cp ∧ cp ≤ 0x10FFFF) →
      utf8_to_win1251 (utf8EncodeAll cps) behind (some buf)
        = (1, some (cps.map win1251_of_codepoint))) ∧
    (∀ (k : Nat) (behind : Nat → Nat) (buf : List Nat), k < 64 → k ≠ 24 →
      utf8_to_win1251 (utf8Encode (wtable.getD k 0).toNat) behind (some buf)
        = (1, some [0x80 + k])) := by
  have main : ∀ (cps : List Nat) (behind : Nat → Nat) (buf : List Nat),
      (∀ cp ∈ cps, 1 ≤ cp ∧ cp ≤ 0x10FFFF) →
      utf8_to_win1251 (utf8EncodeAll cps) behind (some buf)
        = (1, some (cps.map win1251_of_codepoint)) := by
    intro cps behind buf hall
    simp only [utf8_to_win1251]
    rw [utf8_to_win1251_loop_utf8EncodeAll behind cps _ _ hall (le_refl _)]
  refine ⟨main, ?_⟩
  intro k behind buf hk h24
  have htab : ∀ k, k < 64 → k ≠ 24 →
      (1 ≤ (wtable.getD k 0).toNat ∧ (wtable.getD k 0).toNat ≤ 0x10FFFF) ∧
      win1251_of_codepoint (wtable.getD k 0).toNat = 0x80 + k := by
    decide
  have h := main [(wtable.getD k 0).toNat] behind buf (by
    intro cp hcp
    rw [List.mem_singleton] at hcp
    rw [hcp]
    exact (htab k hk h24).1)
  simp only [utf8EncodeAll, List.append_nil, List.map_cons, List.map_nil,
    (htab k hk h24).2] at h
  exact h

/-- Witness of C10: ASCII, a table entry, a letter outside Windows-1251, the
ends of the two Cyrillic ranges, the euro sign, a four-byte code point and
U+007F, with the bytes 90 80 behind the NUL. -/
theorem utf8_to_win1251_reference_witness :
    utf8_to_win1251
        (utf8EncodeAll [0x41, 0x401, 0x3BB, 0x410, 0x44F, 0x20AC, 0x1F600, 0x7F])
        (bytesThenZeros [0x90, 0x80]) (some [])
      = (1, some [0x41, 0xA8, 0x3F, 0xC0, 0xFF, 0x88, 0x3F, 0x7F]) :=
  utf8_to_win1251_reference.1 [0x41, 0x401, 0x3BB, 0x410, 0x44F, 0x20AC, 0x1F600, 0x7F]
    (bytesThenZeros [0x90, 0x80]) [] (by decide)

/-! ## Key handling: the Windows-1251 route -/

/-- C9: a key event with key code other than Return and Backspace and a
character value above 256 appends exactly the output of the transcoder for
its text bytes, marks the control dirty, leaves the activation latch and the
other attributes alone and is reported as handled, in either encoding mode and
whatever the width. -/
theorem OnKeyPress_cp1251 (c : Collab) (w : GUITextBox) (ki : KeyInput)
    (hret : ki.Key ≠ eAGSKeyCode.eAGSKeyCodeReturn)
    (hbsp : ki.Key ≠ eAGSKeyCode.eAGSKeyCodeBackspace) (hu : ki.UChar > 256) :
    ∃ out, (∀ buf, utf8_to_win1251 ki.Text ki.TextBehind (some buf) = (1, some out)) ∧
      (OnKeyPress c w ki).1 = true ∧
      (OnKeyPress c w ki).2._text = w._text ++ out ∧
      (OnKeyPress c w ki).2._hasChanged = true ∧
      (OnKeyPress c w ki).2._isActivated = w._isActivated ∧
      (OnKeyPress c w ki).2._font = w._font ∧
      (OnKeyPress c w ki).2._textColor = w._textColor ∧
      (OnKeyPress c w ki).2._textBoxFlags = w._textBoxFlags := by
  refine ⟨utf8_to_win1251_loop ki.TextBehind ki.Text.length ki.Text 0, fun _ => rfl, ?_⟩
  obtain ⟨key, uchar, text, behind⟩ := ki
  cases key with
  | eAGSKeyCodeReturn => exact absurd rfl hret
  | eAGSKeyCodeBackspace => exact absurd rfl hbsp
  | eAGSKeyCodeOther code =>
    have hu1 : 256 < uchar := hu
    simp [OnKeyPress, hu1, utf8_to_win1251, cstr_utf8_to_win1251_loop, MarkChanged]

/-- Witness of C9: U+0401 with text bytes D0 81, legacy mode, a box of width
0 holding "hi": exactly the byte 0xA8 is appended. -/
theorem OnKeyPress_cp1251_witness :
    ∃ out, (∀ buf, utf8_to_win1251 (charKey 0x401).Text (charKey 0x401).TextBehind (some buf)
        = (1, some out)) ∧
      out = [0xA8] ∧ (charKey 0x401).Text = [0xD0, 0x81] ∧
      (OnKeyPress (sampleCollab UFormat.U_ASCII) (narrowBox [0x68, 0x69]) (charKey 0x401)).1
        = true ∧
      (OnKeyPress (sampleCollab UFormat.U_ASCII) (narrowBox [0x68, 0x69]) (charKey 0x401)).2._text
        = [0x68, 0x69] ++ out ∧
      (OnKeyPress (sampleCollab UFormat.U_ASCII) (narrowBox [0x68, 0x69])
        (charKey 0x401)).2._hasChanged = true := by
  obtain ⟨out, h1, h2, h3, h4, _⟩ := OnKeyPress_cp1251 (sampleCollab UFormat.U_ASCII)
    (narrowBox [0x68, 0x69]) (charKey 0x401) (by decide) (by decide) (by decide)
  have ho : out = [0xA8] := by
    have h := h1 []
    have h0 : utf8_to_win1251 (charKey 0x401).Text (charKey 0x401).TextBehind (some [])
        = (1, some [0xA8]) := by decide
    rw [h0] at h
    injection h with _ h
    injection h with h
    exact h.symm
  exact ⟨out, h1, ho, by decide, h2, h3, h4⟩

/-! ## Backspace and the width limit -/

set_option maxRecDepth 8000 in
theorem isContinuationByte_iff :
    ∀ b, b < 256 → (isContinuationByte b = true ↔ (0x80 ≤ b ∧ b < 0xC0)) := by
  decide

theorem isContinuationByte_false (b : Nat) (hb : b < 256) (h : b < 0x80 ∨ 0xC0 ≤ b) :
    isContinuationByte b = false := by
  cases hc : isContinuationByte b with
  | false => rfl
  | true =>
    have := (isContinuationByte_iff b hb).mp hc
    omega

theorem isContinuationByte_true (x : Nat) : isContinuationByte (0x80 + x % 64) = true :=
  (isContinuationByte_iff _ (by omega)).mpr (by omega)

theorem backScan_lead (more b : Nat) (rest : List Nat) (h : isContinuationByte b = false) :
    backScan more (b :: rest) = 1 := by
  cases more <;> simp [backScan, h]

theorem backScan_cont (more b r : Nat) (rest : List Nat) (h : isContinuationByte b = true) :
    backScan (more + 1) (b :: r :: rest) = 1 + backScan more (r :: rest) := by
  simp [backScan, h]

/-- In UTF-8 mode Backspace removes a final group of bytes that the backward
scan measures in full. -/
theorem Backspace_utf8_append (c : Collab) (t enc : List Nat)
    (hutf : c.get_uformat = UFormat.U_UTF8)
    (h : backScan 3 (enc.reverse ++ t.reverse) = enc.length) :
    Backspace c (t ++ enc) = t := by
  simp only [Backspace, hutf, if_true, Utf8_BackOneChar, ClipRight, List.reverse_append, h,
    List.length_append]
  have e : t.length + enc.length - (t.length + enc.length - (t.length + enc.length - enc.length))
      = t.length := by omega
  rw [e, List.take_left]

/-- In UTF-8 mode Backspace removes a final byte that is not a continuation
byte. -/
theorem Backspace_utf8_append_lead (c : Collab) (t : List Nat) (b : Nat)
    (hutf : c.get_uformat = UFormat.U_UTF8) (hb : isContinuationByte b = false) :
    Backspace c (t ++ [b]) = t :=
  Backspace_utf8_append c t [b] hutf (by simp [backScan_lead _ _ _ hb])

/-- In UTF-8 mode Backspace removes the standard encoding of a code point. -/
theorem Backspace_utf8_append_utf8Encode (c : Collab) (t : List Nat) (cp : Nat)
    (hutf : c.get_uformat = UFormat.U_UTF8) (hcp : cp ≤ 0x10FFFF) :
    Backspace c (t ++ utf8Encode cp) = t := by
  apply Backspace_utf8_append c t _ hutf
  unfold utf8Encode
  by_cases h1 : cp < 0x80
  · simp [h1, backScan_lead _ _ _ (isContinuationByte_false cp (by omega) (Or.inl h1))]
  · by_cases h2 : cp < 0x800
    · simp [h1, h2, backScan_cont, isContinuationByte_true,
        backScan_lead _ _ _ (isContinuationByte_false (0xC0 + cp / 64) (by omega)
          (Or.inr (by omega)))]
    · by_cases h4 : cp < 0x10000
      · simp [h1, h2, h4, backScan_cont, isContinuationByte_true,
          backScan_lead _ _ _ (isContinuationByte_false (0xE0 + cp / 4096) (by omega)
            (Or.inr (by omega)))]
      · simp [h1, h2, h4, backScan_cont, isContinuationByte_true,
          backScan_lead _ _ _ (isContinuationByte_false (0xF0 + cp / 262144) (by omega)
            (Or.inr (by omega)))]

/-- In legacy mode Backspace removes the last byte. -/
theorem Backspace_legacy_append (c : Collab) (t : List Nat) (b : Nat)
    (hleg : c.get_uformat ≠ UFormat.U_UTF8) :
    Backspace c (t ++ [b]) = t := by
  simp [Backspace, hleg, ClipRight]

/-- C1 (as amended): for a key event that is not Backspace and whose
character value is at most 256, where in UTF-8 mode the text bytes of a
character event are the UTF-8 encoding of one code point, after OnKeyPress
either the text fits the width limit or the text is what it was. -/
theorem OnKeyPress_fits_or_unchanged (c : Collab) (w : GUITextBox) (ki : KeyInput)
    (hbsp : ki.Key ≠ eAGSKeyCode.eAGSKeyCodeBackspace) (hu : ki.UChar ≤ 256)
    (htext : c.get_uformat = UFormat.U_UTF8 → ki.UChar ≠ 0 →
      ∃ cp, cp ≤ 0x10FFFF ∧ ki.Text = utf8Encode cp) :
    fitsWidth c (OnKeyPress c w ki).2 ∨ (OnKeyPress c w ki).2._text = w._text := by
  unfold fitsWidth widthLimit
  obtain ⟨key, uchar, text, behind⟩ := ki
  cases key with
  | eAGSKeyCodeReturn => right; simp [OnKeyPress]
  | eAGSKeyCodeBackspace => exact absurd rfl hbsp
  | eAGSKeyCodeOther code =>
    have hu1 : ¬ uchar > 256 := by
      have : uchar ≤ 256 := hu
      omega
    by_cases h0 : uchar = 0
    · right; simp [OnKeyPress, h0]
    · by_cases hutf : c.get_uformat = UFormat.U_UTF8
      · obtain ⟨cp, hcp, hte⟩ := htext hutf h0
        have hte1 : text = utf8Encode cp := hte
        by_cases hw : c.get_text_width (w._text ++ utf8Encode cp) w._font
            > w._width - (6 + c.get_fixed_pixel_size 5)
        · right
          simp [OnKeyPress, afterAppend, hu1, h0, hutf, hte1, hw, MarkChanged,
            Backspace_utf8_append_utf8Encode c w._text cp hutf hcp]
        · left
          simp only [OnKeyPress, afterAppend, hu1, h0, hutf, hte1, hw, MarkChanged, if_true,
            if_false]
          omega
      · by_cases h256 : uchar < 256
        · by_cases hw : c.get_text_width (w._text ++ [uchar % 256]) w._font
              > w._width - (6 + c.get_fixed_pixel_size 5)
          · right
            simp [OnKeyPress, afterAppend, hu1, h0, hutf, h256, hw, MarkChanged,
              Backspace_legacy_append c w._text (uchar % 256) hutf]
          · left
            simp only [OnKeyPress, afterAppend, hu1, h0, hutf, h256, hw, MarkChanged, if_true,
              if_false]
            omega
        · right
          simp [OnKeyPress, hu1, h0, hutf, h256]

/-- Witness of C1 (as amended): UTF-8 mode, width 100 at 6 pixels per byte
(limit 89): the 15th 'a' is rolled back, so the text stays at 14 letters. -/
theorem OnKeyPress_fits_or_unchanged_witness :
    (OnKeyPress (sampleCollab UFormat.U_UTF8) (sampleBox (letters 14)) (charKey 0x61)).2._text
      = letters 14 ∧
    (fitsWidth (sampleCollab UFormat.U_UTF8)
        (OnKeyPress (sampleCollab UFormat.U_UTF8) (sampleBox (letters 14)) (charKey 0x61)).2 ∨
    (OnKeyPress (sampleCollab UFormat.U_UTF8) (sampleBox (letters 14)) (charKey 0x61)).2._text
      = (sampleBox (letters 14))._text) :=
  ⟨by decide,
    OnKeyPress_fits_or_unchanged (sampleCollab UFormat.U_UTF8) (sampleBox (letters 14))
      (charKey 0x61) (by decide) (by decide) (fun _ _ => ⟨0x61, by decide, rfl⟩)⟩

/-- C1 fails as stated. Backspace on a text of 20 letters in a box of width
100 (limit 89, 6 pixels per byte) leaves 19 letters: the text has changed and
is 114 pixels wide. A character above 256 typed after 14 letters is appended
without a width check: the text has changed and is 90 pixels wide. -/
theorem OnKeyPress_neither_fits_nor_unchanged :
    (¬ (fitsWidth (sampleCollab UFormat.U_ASCII)
          (OnKeyPress (sampleCollab UFormat.U_ASCII) (sampleBox (letters 20)) backspaceKey).2 ∨
      (OnKeyPress (sampleCollab UFormat.U_ASCII) (sampleBox (letters 20)) backspaceKey).2._text
        = (sampleBox (letters 20))._text)) ∧
    (¬ (fitsWidth (sampleCollab UFormat.U_ASCII)
          (OnKeyPress (sampleCollab UFormat.U_ASCII) (sampleBox (letters 14)) (charKey 0x401)).2 ∨
      (OnKeyPress (sampleCollab UFormat.U_ASCII) (sampleBox (letters 14)) (charKey 0x401)).2._text
        = (sampleBox (letters 14))._text)) := by
  decide

/-- The Windows-1251 route in UTF-8 mode: text "a", then U+0401 with bytes D0
81. Lines 276-281 store the single byte 0xA8, which is not UTF-8; the
Backspace that follows takes it for a continuation byte and removes the "a"
with it. -/
theorem OnKeyPress_append_Backspace_table_entry :
    (charKey 0x401).Text = [0xD0, 0x81] ∧
    (OnKeyPress (sampleCollab UFormat.U_UTF8) (sampleBox [0x61]) (charKey 0x401)).2._text
      = [0x61, 0xA8] ∧
    (OnKeyPress (sampleCollab UFormat.U_UTF8)
      (OnKeyPress (sampleCollab UFormat.U_UTF8) (sampleBox [0x61]) (charKey 0x401)).2
      backspaceKey).2._text = [] ∧
    (OnKeyPress (sampleCollab UFormat.U_UTF8)
      (OnKeyPress (sampleCollab UFormat.U_UTF8) (sampleBox [0x61]) (charKey 0x401)).2
      backspaceKey).2._text ≠ (sampleBox [0x61])._text := by
  decide

/-! ## The transcoder on malformed input -/

/-- C11 (the code departs from it): a lead byte followed by a byte below
0x80 is not rejected. For C3 41 the code point read is 0xC1, not -1, the
byte '?' is stored and the 'A' is swallowed; for D0 41 42 the code point is
0x401, so 0xA8 is stored, and only the 'B' is copied. A byte above 0xBF after
the lead is rejected, as is a stray continuation byte or a byte from 0xF8 on.
None of these inputs is read at or behind its NUL, so this holds whatever the
memory behind the string holds. -/
theorem utf8_to_win1251_low_continuation (behind : Nat → Nat) :
    readUnicodeChar behind 0xC3 [0x41] 0 = ([], 0xC1) ∧
    utf8_to_win1251 [0xC3, 0x41] behind (some []) = (1, some [0x3F]) ∧
    utf8_to_win1251 [0xD0, 0x41, 0x42] behind (some []) = (1, some [0xA8, 0x42]) ∧
    utf8_to_win1251 [0xC3, 0xC3] behind (some []) = (1, some []) ∧
    utf8_to_win1251 [0xA9, 0x41] behind (some []) = (1, some [0x41]) ∧
    utf8_to_win1251 [0xF8, 0x41] behind (some []) = (1, some [0x41]) := by
  refine ⟨?_, ?_, ?_, ?_, ?_, ?_⟩ <;>
    simp [utf8_to_win1251, utf8_to_win1251_loop, readUnicodeChar, decodeLead, readContinuation,
      readByte, memAt] <;>
    decide

/-! ## Loading -/

/-- C12: whenever the stream holds the fields, ReadFromFile succeeds and the
loaded colour is 16 if the stored colour is 0 and the stored colour
otherwise, at every version; and whatever stream was loaded, the colour is
not 0 afterwards. -/
theorem ReadFromFile_colour (d : Decls) (base : BaseSerial) (w : GUITextBox) (inp : List Nat)
    (gui_version : Int) :
    (∀ (o : GUIObject) (in1 text in2 : List Nat) (font : Int) (in3 : List Nat) (color : Int)
        (in4 : List Nat) (flags : Int) (in5 : List Nat),
      base.ReadFromFile w.toGUIObject inp gui_version = some (o, in1) →
      (if gui_version < d.kGuiVersion_350 then ReadCount in1 GUITEXTBOX_LEGACY_TEXTLEN
        else ReadString in1) = some (text, in2) →
      ReadInt32 in2 = some (font, in3) → ReadInt32 in3 = some (color, in4) →
      ReadInt32 in4 = some (flags, in5) →
      ∃ r, ReadFromFile d base w inp gui_version = some (r, in5) ∧
        r._textColor = (if color = 0 then 16 else color)) ∧
    (∀ (r : GUITextBox) (rest : List Nat),
      ReadFromFile d base w inp gui_version = some (r, rest) → r._textColor ≠ 0) := by
  constructor
  · intro o in1 text in2 font in3 color in4 flags in5 hb ht hf hc hfl
    simp only [ReadFromFile, hb, ht, hf, hc, hfl]
    exact ⟨_, rfl, rfl⟩
  · intro r rest h
    unfold ReadFromFile at h
    split at h
    · exact absurd h (by simp)
    · split at h
      · exact absurd h (by simp)
      · split at h
        · exact absurd h (by simp)
        · split at h
          · exact absurd h (by simp)
          · split at h
            · exact absurd h (by simp)
            · rename_i color _ _ _ _ _
              simp only [Option.some.injEq, Prod.mk.injEq] at h
              rw [← h.1]
              simp only
              split_ifs with h0
              · decide
              · exact h0

set_option maxRecDepth 8000 in
/-- Witness of C12: a legacy stream whose stored colour is 0, loaded at a
version before 3.5.0: the colour comes out as 16. -/
theorem ReadFromFile_colour_witness :
    (∃ r, ReadFromFile sampleDecls emptyBase (sampleBox []) legacyStream 118 = some (r, []) ∧
      r._textColor = (if (0 : Int) = 0 then 16 else 0)) ∧
    (∀ (r : GUITextBox) (rest : List Nat),
      ReadFromFile sampleDecls emptyBase (sampleBox []) legacyStream 118 = some (r, rest) →
        r._textColor ≠ 0) :=
  ⟨(ReadFromFile_colour sampleDecls emptyBase (sampleBox []) legacyStream 118).1
      (sampleBox []).toGUIObject legacyStream [0x67, 0x6F] (legacyStream.drop 200) 3
      (WriteInt32 0 ++ WriteInt32 0) 0 (WriteInt32 0) 0 [] rfl (by decide) (by decide)
      (by decide) (by decide),
    (ReadFromFile_colour sampleDecls emptyBase (sampleBox []) legacyStream 118).2⟩

/-- C13: before version 3.5.0 ReadFromFile takes the text from a fixed
buffer of 200 bytes, up to its first NUL, and loads the stored flag word
xor-ed once with the legacy mask; from 3.5.0 on it reads the length-prefixed
string and loads the stored flag word as it is. -/
theorem ReadFromFile_text_and_flags (d : Decls) (base : BaseSerial) (w : GUITextBox)
    (inp : List Nat) (gui_version : Int) :
    (gui_version < d.kGuiVersion_350 →
      ∀ (o : GUIObject) (in1 : List Nat) (font : Int) (in3 : List Nat) (color : Int)
        (in4 : List Nat) (flags : Int) (in5 : List Nat),
      base.ReadFromFile w.toGUIObject inp gui_version = some (o, in1) →
      200 ≤ in1.length →
      ReadInt32 (in1.drop 200) = some (font, in3) → ReadInt32 in3 = some (color, in4) →
      ReadInt32 in4 = some (flags, in5) →
      ∃ r, ReadFromFile d base w inp gui_version = some (r, in5) ∧
        r._text = cstr (in1.take 200) ∧
        r._textBoxFlags = toUInt32 flags ^^^ d.kTextBox_OldFmtXorMask ∧
        r._textBoxFlags ^^^ d.kTextBox_OldFmtXorMask = toUInt32 flags) ∧
    (gui_version ≥ d.kGuiVersion_350 →
      ∀ (o : GUIObject) (in1 text in2 : List Nat) (font : Int) (in3 : List Nat) (color : Int)
        (in4 : List Nat) (flags : Int) (in5 : List Nat),
      base.ReadFromFile w.toGUIObject inp gui_version = some (o, in1) →
      ReadString in1 = some (text, in2) →
      ReadInt32 in2 = some (font, in3) → ReadInt32 in3 = some (color, in4) →
      ReadInt32 in4 = some (flags, in5) →
      ∃ r, ReadFromFile d base w inp gui_version = some (r, in5) ∧
        r._text = text ∧ r._textBoxFlags = toUInt32 flags) := by
  constructor
  · intro hv o in1 font in3 color in4 flags in5 hb hlen hf hc hfl
    have hlen1 : GUITEXTBOX_LEGACY_TEXTLEN ≤ in1.length := hlen
    have hf1 : ReadInt32 (List.drop GUITEXTBOX_LEGACY_TEXTLEN in1) = some (font, in3) := hf
    simp only [ReadFromFile, hb, hv, if_true, ReadCount, hlen1, hf1, hc, hfl]
    refine ⟨_, rfl, rfl, rfl, ?_⟩
    simp only [Nat.xor_assoc, Nat.xor_self, Nat.xor_zero]
  · intro hv o in1 text in2 font in3 color in4 flags in5 hb ht hf hc hfl
    have hnot : ¬ gui_version < d.kGuiVersion_350 := by omega
    simp only [ReadFromFile, hb, hnot, if_false, ht, hf, hc, hfl]
    exact ⟨_, rfl, rfl, rfl⟩

set_option maxRecDepth 8000 in
/-- Witness of C13: the legacy stream (text buffer "go", flag word 0) loaded
at version 118 gives text "go" and flags 1; the bytes written by WriteToFile
for the scenario widget, loaded at version 119, give text "go" and flags 1. -/
theorem ReadFromFile_text_and_flags_witness :
    (∃ r, ReadFromFile sampleDecls emptyBase (sampleBox []) legacyStream 118 = some (r, []) ∧
      r._text = cstr (legacyStream.take 200) ∧
      r._textBoxFlags = toUInt32 0 ^^^ sampleDecls.kTextBox_OldFmtXorMask ∧
      r._textBoxFlags ^^^ sampleDecls.kTextBox_OldFmtXorMask = toUInt32 0) ∧
    cstr (legacyStream.take 200) = [0x67, 0x6F] ∧
    toUInt32 0 ^^^ sampleDecls.kTextBox_OldFmtXorMask = 1 ∧
    (∃ r, ReadFromFile sampleDecls emptyBase (sampleBox []) (WriteToFile emptyBase sampleGo) 119
        = some (r, []) ∧ r._text = [0x67, 0x6F] ∧ r._textBoxFlags = toUInt32 1) :=
  ⟨(ReadFromFile_text_and_flags sampleDecls emptyBase (sampleBox []) legacyStream 118).1
      (by decide) (sampleBox []).toGUIObject legacyStream 3 (WriteInt32 0 ++ WriteInt32 0) 0
      (WriteInt32 0) 0 [] rfl (by decide) (by decide) (by decide) (by decide),
    by decide, by decide,
    (ReadFromFile_text_and_flags sampleDecls emptyBase (sampleBox [])
        (WriteToFile emptyBase sampleGo) 119).2
      (by decide) (sampleBox []).toGUIObject (WriteToFile emptyBase sampleGo) [0x67, 0x6F]
      (WriteInt32 3 ++ WriteInt32 7 ++ WriteInt32 1) 3 (WriteInt32 7 ++ WriteInt32 1) 7
      (WriteInt32 1) 1 [] rfl (by decide) (by decide) (by decide) (by decide)⟩

/-- C14: before savegame version 3.5.0 ReadFromSavegame sets font, colour
and text from the stream, keeps the flags the widget had and stops right
after the text; from 3.5.0 on it also sets the flags from the next 32-bit
integer. -/
theorem ReadFromSavegame_flags (d : Decls) (base : BaseSerial) (w : GUITextBox)
    (inp : List Nat) (svg_ver : Int) :
    (svg_ver < d.kGuiSvgVersion_350 →
      ∀ (o : GUIObject) (in1 : List Nat) (font : Int) (in2 : List Nat) (color : Int)
        (in3 text in4 : List Nat),
      base.ReadFromSavegame w.toGUIObject inp svg_ver = some (o, in1) →
      ReadInt32 in1 = some (font, in2) → ReadInt32 in2 = some (color, in3) →
      ReadString in3 = some (text, in4) →
      ∃ r, ReadFromSavegame d base w inp svg_ver = some (r, in4) ∧
        r._font = font ∧ r._textColor = color ∧ r._text = text ∧
        r._textBoxFlags = w._textBoxFlags) ∧
    (svg_ver ≥ d.kGuiSvgVersion_350 →
      ∀ (o : GUIObject) (in1 : List Nat) (font : Int) (in2 : List Nat) (color : Int)
        (in3 text in4 : List Nat) (flags : Int) (in5 : List Nat),
      base.ReadFromSavegame w.toGUIObject inp svg_ver = some (o, in1) →
      ReadInt32 in1 = some (font, in2) → ReadInt32 in2 = some (color, in3) →
      ReadString in3 = some (text, in4) → ReadInt32 in4 = some (flags, in5) →
      ∃ r, ReadFromSavegame d base w inp svg_ver = some (r, in5) ∧
        r._font = font ∧ r._textColor = color ∧ r._text = text ∧
        r._textBoxFlags = toUInt32 flags) := by
  constructor
  · intro hv o in1 font in2 color in3 text in4 hb hf hc ht
    have hnot : ¬ svg_ver ≥ d.kGuiSvgVersion_350 := by omega
    simp only [ReadFromSavegame, hb, hf, hc, ht, hnot, if_false]
    exact ⟨_, rfl, rfl, rfl, rfl, rfl⟩
  · intro hv o in1 font in2 color in3 text in4 flags in5 hb hf hc ht hfl
    simp only [ReadFromSavegame, hb, hf, hc, ht, hv, if_true, hfl]
    exact ⟨_, rfl, rfl, rfl, rfl, rfl⟩

/-- Witness of C14: the stream font 2, colour 5, text "go", 09 00 00 00 read
into a widget with flag word 1: at version 0 the flags stay 1 and the four
bytes are left unread, at version 1 the flags become 9. -/
theorem ReadFromSavegame_flags_witness :
    (∃ r, ReadFromSavegame sampleDecls emptyBase (sampleBox []) oldSavegameStream 0
        = some (r, [9, 0, 0, 0]) ∧
      r._font = 2 ∧ r._textColor = 5 ∧ r._text = [0x67, 0x6F] ∧
      r._textBoxFlags = (sampleBox [])._textBoxFlags) ∧
    (sampleBox [])._textBoxFlags = 1 ∧
    (∃ r, ReadFromSavegame sampleDecls emptyBase (sampleBox []) oldSavegameStream 1
        = some (r, []) ∧
      r._font = 2 ∧ r._textColor = 5 ∧ r._text = [0x67, 0x6F] ∧
      r._textBoxFlags = toUInt32 9) :=
  ⟨(ReadFromSavegame_flags sampleDecls emptyBase (sampleBox []) oldSavegameStream 0).1
      (by decide) (sampleBox []).toGUIObject oldSavegameStream 2
      (WriteInt32 5 ++ WriteString [0x67, 0x6F] ++ [9, 0, 0, 0]) 5
      (WriteString [0x67, 0x6F] ++ [9, 0, 0, 0]) [0x67, 0x6F] [9, 0, 0, 0]
      rfl (by decide) (by decide) (by decide),
    rfl,
    (ReadFromSavegame_flags sampleDecls emptyBase (sampleBox []) oldSavegameStream 1).2
      (by decide) (sampleBox []).toGUIObject oldSavegameStream 2
      (WriteInt32 5 ++ WriteString [0x67, 0x6F] ++ [9, 0, 0, 0]) 5
      (WriteString [0x67, 0x6F] ++ [9, 0, 0, 0]) [0x67, 0x6F] [9, 0, 0, 0] 9 []
      rfl (by decide) (by decide) (by decide) (by decide)⟩

/-! ## Writing -/

theorem WriteInt32_length (v : Int) : (WriteInt32 v).length = 4 := rfl

/-- C15: after the bytes of the base class, WriteToFile emits the 32-bit
length of the text and the text, then font, colour and flags as 32-bit
integers; WriteToSavegame emits font and colour, then the length and the
text, then the flags. Each integer takes four bytes, so the text starts at
offset 4 in the one layout and at offset 12 in the other, and the two byte
sequences differ for the scenario widget. -/
theorem write_layouts :
    (∀ (base : BaseSerial) (w : GUITextBox),
      WriteToFile base w =
        base.WriteToFile w.toGUIObject ++ (WriteInt32 (w._text.length : Int) ++ w._text ++
          (WriteInt32 w._font ++ (WriteInt32 w._textColor ++
            WriteInt32 (w._textBoxFlags : Int)))) ∧
      WriteToSavegame base w =
        base.WriteToSavegame w.toGUIObject ++ (WriteInt32 w._font ++ (WriteInt32 w._textColor ++
          (WriteInt32 (w._text.length : Int) ++ w._text ++
            WriteInt32 (w._textBoxFlags : Int)))) ∧
      ((WriteToFile base w).drop ((base.WriteToFile w.toGUIObject).length + 4)).take
          w._text.length = w._text ∧
      ((WriteToSavegame base w).drop ((base.WriteToSavegame w.toGUIObject).length + 12)).take
          w._text.length = w._text ∧
      (WriteToFile base w).length = (base.WriteToFile w.toGUIObject).length + 16 + w._text.length ∧
      (WriteToSavegame base w).length
        = (base.WriteToSavegame w.toGUIObject).length + 16 + w._text.length) ∧
    WriteToFile emptyBase sampleGo
      = [2, 0, 0, 0, 0x67, 0x6F, 3, 0, 0, 0, 7, 0, 0, 0, 1, 0, 0, 0] ∧
    WriteToSavegame emptyBase sampleGo
      = [3, 0, 0, 0, 7, 0, 0, 0, 2, 0, 0, 0, 0x67, 0x6F, 1, 0, 0, 0] ∧
    WriteToFile emptyBase sampleGo ≠ WriteToSavegame emptyBase sampleGo := by
  refine ⟨?_, by decide, by decide, by decide⟩
  intro base w
  refine ⟨?_, ?_, ?_, ?_, ?_, ?_⟩
  · simp [WriteToFile, WriteString, List.append_assoc]
  · simp [WriteToSavegame, WriteString, List.append_assoc]
  · have e : WriteToFile base w = base.WriteToFile w.toGUIObject ++
        (WriteInt32 (w._text.length : Int) ++ (w._text ++ (WriteInt32 w._font ++
          (WriteInt32 w._textColor ++ WriteInt32 (w._textBoxFlags : Int))))) := by
      simp [WriteToFile, WriteString, List.append_assoc]
    rw [e, List.drop_append, List.drop_append_of_le_length (by simp [WriteInt32_length]),
      List.drop_of_length_le (by simp [WriteInt32_length]), List.nil_append, List.take_left]
  · have e : WriteToSavegame base w = base.WriteToSavegame w.toGUIObject ++
        ((WriteInt32 w._font ++ WriteInt32 w._textColor ++ WriteInt32 (w._text.length : Int)) ++
          (w._text ++ WriteInt32 (w._textBoxFlags : Int))) := by
      simp [WriteToSavegame, WriteString, List.append_assoc]
    rw [e, List.drop_append, List.drop_append_of_le_length (by simp [WriteInt32_length]),
      List.drop_of_length_le (by simp [WriteInt32_length]), List.nil_append, List.take_left]
  · simp only [WriteToFile, WriteString, List.length_append, WriteInt32_length]
    omega
  · simp only [WriteToSavegame, WriteString, List.length_append, WriteInt32_length]
    omega

/-! ## The activation latch -/

theorem OnKeyPress_isActivated (c : Collab) (w : GUITextBox) (ki : KeyInput) :
    (OnKeyPress c w ki).2._isActivated
      = (w._isActivated || decide (ki.Key = eAGSKeyCode.eAGSKeyCodeReturn)) := by
  obtain ⟨key, uchar, text, behind⟩ := ki
  cases key with
  | eAGSKeyCodeReturn => simp [OnKeyPress]
  | eAGSKeyCodeBackspace => simp [OnKeyPress, MarkChanged]
  | eAGSKeyCodeOther code =>
    simp only [OnKeyPress, afterAppend, MarkChanged]
    split_ifs <;> simp

theorem applyOperation_isActivated (d : Decls) (w : GUITextBox) (step : Collab × Operation)
    (h : w._isActivated = true) : (applyOperation d w step)._isActivated = true := by
  obtain ⟨c, op⟩ := step
  cases op with
  | keyPress ki => simp [applyOperation, OnKeyPress_isActivated, h]
  | setFont font =>
    simp only [applyOperation, SetFont, MarkChanged]
    split_ifs <;> simp [h]
  | setTextColor color =>
    simp only [applyOperation, SetTextColor, MarkChanged]
    split_ifs <;> simp [h]
  | setText text =>
    simp only [applyOperation, SetText, MarkChanged]
    split_ifs <;> simp [h]
  | setShowBorder b =>
    simp only [applyOperation, SetShowBorder]
    split_ifs <;> simp [h]

/-- C16: a key event whose key code is not Return leaves the activation
latch as it is; no operation of the control (any key event, SetFont,
SetTextColor, SetText, SetShowBorder) clears a set latch; so after any
sequence of operations a latch that was set is still set. -/
theorem isActivated_latch :
    (∀ (c : Collab) (w : GUITextBox) (ki : KeyInput),
      ki.Key ≠ eAGSKeyCode.eAGSKeyCodeReturn →
        (OnKeyPress c w ki).2._isActivated = w._isActivated) ∧
    (∀ (d : Decls) (w : GUITextBox) (step : Collab × Operation),
      w._isActivated = true → (applyOperation d w step)._isActivated = true) ∧
    (∀ (d : Decls) (steps : List (Collab × Operation)) (w : GUITextBox),
      w._isActivated = true → (runOperations d w steps)._isActivated = true) := by
  refine ⟨?_, applyOperation_isActivated, ?_⟩
  · intro c w ki hk
    simp [OnKeyPress_isActivated, hk]
  · intro d steps
    induction steps with
    | nil => intro w h; exact h
    | cons step tl ih =>
      intro w h
      exact ih (applyOperation d w step) (applyOperation_isActivated d w step h)

/-- Witness of C16: Backspace on a box that is not activated leaves it so;
after Return, the run Backspace, 'a', SetText, SetShowBorder(false), SetFont,
SetTextColor, with the mode changing on the way, leaves the latch set. -/
theorem isActivated_latch_witness :
    (OnKeyPress (sampleCollab UFormat.U_UTF8) (sampleBox [0x68]) backspaceKey).2._isActivated
      = (sampleBox [0x68])._isActivated ∧
    (runOperations sampleDecls
      (OnKeyPress (sampleCollab UFormat.U_UTF8) (sampleBox [0x68])
        ⟨eAGSKeyCode.eAGSKeyCodeReturn, 13, [13], fun _ => 0⟩).2
      [(sampleCollab UFormat.U_UTF8, Operation.keyPress backspaceKey),
       (sampleCollab UFormat.U_ASCII, Operation.keyPress (charKey 0x61)),
       (sampleCollab UFormat.U_ASCII, Operation.setText []),
       (sampleCollab UFormat.U_UTF8, Operation.setShowBorder false),
       (sampleCollab UFormat.U_UTF8, Operation.setFont 2),
       (sampleCollab UFormat.U_UTF8, Operation.setTextColor 3)])._isActivated = true :=
  ⟨isActivated_latch.1 (sampleCollab UFormat.U_UTF8) (sampleBox [0x68]) backspaceKey
      (by decide),
    isActivated_latch.2.2 sampleDecls _ _ (by decide)⟩

/-! ## The Backspace key -/

theorem ClipRight_one (text : List Nat) : ClipRight text 1 = text.dropLast := by
  unfold ClipRight
  rw [List.dropLast_eq_take]

/-- C18: the Backspace key is handled; an empty text stays empty in both
modes; in legacy mode the text loses its last byte; in UTF-8 mode a text that
ends with the UTF-8 encoding of one code point loses exactly that encoding;
the dirty flag is set and no other attribute changes. -/
theorem OnKeyPress_Backspace (c : Collab) (w : GUITextBox) (ki : KeyInput)
    (hkey : ki.Key = eAGSKeyCode.eAGSKeyCodeBackspace) :
    (OnKeyPress c w ki).1 = true ∧
    (w._text = [] → (OnKeyPress c w ki).2._text = []) ∧
    (c.get_uformat ≠ UFormat.U_UTF8 → (OnKeyPress c w ki).2._text = w._text.dropLast) ∧
    (c.get_uformat = UFormat.U_UTF8 → ∀ (p : List Nat) (cp : Nat), cp ≤ 0x10FFFF →
      w._text = p ++ utf8Encode cp → (OnKeyPress c w ki).2._text = p) ∧
    (OnKeyPress c w ki).2._hasChanged = true ∧
    (OnKeyPress c w ki).2._font = w._font ∧
    (OnKeyPress c w ki).2._textColor = w._textColor ∧
    (OnKeyPress c w ki).2._textBoxFlags = w._textBoxFlags ∧
    (OnKeyPress c w ki).2._isActivated = w._isActivated ∧
    (OnKeyPress c w ki).2._width = w._width := by
  have htext : (OnKeyPress c w ki).2._text = Backspace c w._text := by
    simp [OnKeyPress, hkey, MarkChanged]
  refine ⟨by simp [OnKeyPress, hkey], ?_, ?_, ?_, by simp [OnKeyPress, hkey, MarkChanged],
    by simp [OnKeyPress, hkey, MarkChanged], by simp [OnKeyPress, hkey, MarkChanged],
    by simp [OnKeyPress, hkey, MarkChanged], by simp [OnKeyPress, hkey, MarkChanged],
    by simp [OnKeyPress, hkey, MarkChanged]⟩
  · intro he
    rw [htext, he]
    by_cases hutf : c.get_uformat = UFormat.U_UTF8 <;>
      simp [Backspace, hutf, ClipRight]
  · intro hleg
    rw [htext]
    simp only [Backspace, hleg, if_false, ClipRight_one]
  · intro hutf p cp hcp hw
    rw [htext, hw]
    exact Backspace_utf8_append_utf8Encode c p cp hutf hcp

/-- Witness of C18: UTF-8 mode, text "a" followed by U+03BB as CE BB:
Backspace leaves "a". -/
theorem OnKeyPress_Backspace_witness :
    (OnKeyPress (sampleCollab UFormat.U_UTF8) (sampleBox ([0x61] ++ utf8Encode 0x3BB))
      backspaceKey).1 = true ∧
    (OnKeyPress (sampleCollab UFormat.U_UTF8) (sampleBox ([0x61] ++ utf8Encode 0x3BB))
      backspaceKey).2._text = [0x61] ∧
    (OnKeyPress (sampleCollab UFormat.U_UTF8) (sampleBox ([0x61] ++ utf8Encode 0x3BB))
      backspaceKey).2._hasChanged = true :=
  have h := OnKeyPress_Backspace (sampleCollab UFormat.U_UTF8)
    (sampleBox ([0x61] ++ utf8Encode 0x3BB)) backspaceKey rfl
  ⟨h.1, h.2.2.2.1 rfl [0x61] 0x3BB (by decide) rfl, h.2.2.2.2.1⟩

/-! ## Typing the same character repeatedly -/

theorem OnKeyPress_width (c : Collab) (w : GUITextBox) (ki : KeyInput) :
    (OnKeyPress c w ki).2._width = w._width := by
  obtain ⟨key, uchar, text, behind⟩ := ki
  cases key with
  | eAGSKeyCodeReturn => simp [OnKeyPress]
  | eAGSKeyCodeBackspace => simp [OnKeyPress, MarkChanged]
  | eAGSKeyCodeOther code =>
    simp only [OnKeyPress, afterAppend, MarkChanged]
    split_ifs <;> simp

/-- One press of an ASCII character key on a text of `k` copies of that
character, with a metric of `px` pixels per byte: the character is kept if
`k + 1` copies fit the limit, and dropped again otherwise. -/
theorem OnKeyPress_ascii_step (c : Collab) (w : GUITextBox) (ki : KeyInput) (px : Int) (k : Nat)
    (htw : ∀ t f, c.get_text_width t f = px * (t.length : Int))
    (hret : ki.Key ≠ eAGSKeyCode.eAGSKeyCodeReturn)
    (hbsp : ki.Key ≠ eAGSKeyCode.eAGSKeyCodeBackspace)
    (h1 : 1 ≤ ki.UChar) (h127 : ki.UChar ≤ 127) (htext : ki.Text = [ki.UChar])
    (hw : w._text = List.replicate k ki.UChar) :
    (OnKeyPress c w ki).2._text =
      if px * ((k : Int) + 1) ≤ widthLimit c w then List.replicate (k + 1) ki.UChar
      else List.replicate k ki.UChar := by
  obtain ⟨key, uchar, text, behind⟩ := ki
  have h1n : 1 ≤ uchar := h1
  have h127n : uchar ≤ 127 := h127
  have hte : text = [uchar] := htext
  have hwn : w._text = List.replicate k uchar := hw
  have hmod : uchar % 256 = uchar := by omega
  have hgt : ¬ uchar > 256 := by omega
  have h0 : uchar ≠ 0 := by omega
  have h256 : uchar < 256 := by omega
  have hlead : isContinuationByte uchar = false :=
    isContinuationByte_false uchar (by omega) (Or.inl (by omega))
  have hlen : ((List.replicate k uchar ++ [uchar]).length : Int) = (k : Int) + 1 := by simp
  cases key with
  | eAGSKeyCodeReturn => exact absurd rfl hret
  | eAGSKeyCodeBackspace => exact absurd rfl hbsp
  | eAGSKeyCodeOther code =>
    by_cases hfit : px * ((k : Int) + 1) ≤ widthLimit c w
    · have hfit1 : ¬ px * ((k : Int) + 1) > w._width - (6 + c.get_fixed_pixel_size 5) := by
        unfold widthLimit at hfit
        omega
      rw [if_pos hfit]
      by_cases hutf : c.get_uformat = UFormat.U_UTF8
      · simp [OnKeyPress, afterAppend, hgt, h0, hutf, hte, hwn, htw, hfit1, MarkChanged,
          List.replicate_succ']
      · simp [OnKeyPress, afterAppend, hgt, h0, hutf, h256, hmod, hwn, htw, hfit1, MarkChanged,
          List.replicate_succ']
    · have hfit1 : px * ((k : Int) + 1) > w._width - (6 + c.get_fixed_pixel_size 5) := by
        unfold widthLimit at hfit
        omega
      rw [if_neg hfit]
      by_cases hutf : c.get_uformat = UFormat.U_UTF8
      · simp [OnKeyPress, afterAppend, hgt, h0, hutf, hte, hwn, htw, hfit1, MarkChanged,
          Backspace_utf8_append_lead c (List.replicate k uchar) uchar hutf hlead]
      · simp [OnKeyPress, afterAppend, hgt, h0, hutf, h256, hmod, hwn, htw, hfit1, MarkChanged,
          Backspace_legacy_append c (List.replicate k uchar) uchar hutf]

theorem pressTimes_width (c : Collab) (ki : KeyInput) (n : Nat) (w : GUITextBox) :
    (pressTimes c ki n w)._width = w._width := by
  induction n with
  | zero => rfl
  | succ n ih => rw [pressTimes, OnKeyPress_width, ih]

/-- C17: with a metric of `px > 0` pixels per byte and a limit
`L = width - (6 + fixed_pixel_size(5)) >= 0`, `n` presses of the same ASCII
character key on an empty text give `min(n, floor(L / px))` copies of the
character, in either mode. -/
theorem pressTimes_ascii (c : Collab) (w0 : GUITextBox) (ki : KeyInput) (px : Int) (n : Nat)
    (hpx : 0 < px) (htw : ∀ t f, c.get_text_width t f = px * (t.length : Int))
    (hL : 0 ≤ widthLimit c w0) (hempty : w0._text = [])
    (hret : ki.Key ≠ eAGSKeyCode.eAGSKeyCodeReturn)
    (hbsp : ki.Key ≠ eAGSKeyCode.eAGSKeyCodeBackspace)
    (h1 : 1 ≤ ki.UChar) (h127 : ki.UChar ≤ 127) (htext : ki.Text = [ki.UChar]) :
    (pressTimes c ki n w0)._text
      = List.replicate (min n (widthLimit c w0 / px).toNat) ki.UChar := by
  have hD : 0 ≤ widthLimit c w0 / px := Int.ediv_nonneg hL (le_of_lt hpx)
  have hdiv : ∀ a : Int, a ≤ widthLimit c w0 / px ↔ a * px ≤ widthLimit c w0 :=
    fun a => Int.le_ediv_iff_mul_le hpx
  induction n with
  | zero => simp [pressTimes, hempty]
  | succ n ih =>
    have hlim : widthLimit c (pressTimes c ki n w0) = widthLimit c w0 := by
      unfold widthLimit
      rw [pressTimes_width]
    rw [pressTimes, OnKeyPress_ascii_step c _ ki px _ htw hret hbsp h1 h127 htext ih, hlim]
    have hk := hdiv (((min n (widthLimit c w0 / px).toNat : Nat) : Int) + 1)
    rw [mul_comm] at hk
    generalize widthLimit c w0 / px = D at hD hk ⊢
    by_cases hfit : px * (((min n D.toNat : Nat) : Int) + 1) ≤ widthLimit c w0
    · rw [if_pos hfit]
      have := hk.mpr hfit
      congr 1
      omega
    · rw [if_neg hfit]
      have : ¬ (((min n D.toNat : Nat) : Int) + 1 ≤ D) := fun h => hfit (hk.mp h)
      congr 1
      omega

/-- Witness of C17: width 100, 6 pixels per byte, scale 1 (limit 89), 15
presses of 'a' in UTF-8 mode: 14 letters, the 15th press is rolled back. -/
theorem pressTimes_ascii_witness :
    min 15 (widthLimit (sampleCollab UFormat.U_UTF8) (sampleBox []) / 6).toNat = 14 ∧
    (pressTimes (sampleCollab UFormat.U_UTF8) (charKey 0x61) 15 (sampleBox []))._text
      = List.replicate (min 15 (widthLimit (sampleCollab UFormat.U_UTF8) (sampleBox []) / 6).toNat)
          (charKey 0x61).UChar :=
  ⟨by decide,
    pressTimes_ascii (sampleCollab UFormat.U_UTF8) (sampleBox []) (charKey 0x61) 6 15
      (by decide) (fun _ _ => rfl) (by decide) rfl (by decide) (by decide) (by decide)
      (by decide) rfl⟩

/-! ## The border flag -/

theorem testBit_of_lt_word (x i : Nat) (hx : x < 4294967296) (hi : 32 ≤ i) :
    x.testBit i = false := by
  apply Nat.testBit_lt_two_pow
  calc x < 2 ^ 32 := hx
    _ ≤ 2 ^ i := Nat.pow_le_pow_right (by decide) hi

theorem testBit_word_mask (i : Nat) : (0xFFFFFFFF : Nat).testBit i = decide (i < 32) := by
  rw [show (0xFFFFFFFF : Nat) = 2 ^ 32 - 1 from rfl, Nat.testBit_two_pow_sub_one]

/-- Setting the border bits and masking with them gives them back. -/
theorem or_and_mask (f k : Nat) : (f ||| k) &&& k = k := by
  apply Nat.eq_of_testBit_eq
  intro i
  rw [Nat.testBit_and, Nat.testBit_or]
  cases f.testBit i <;> cases k.testBit i <;> rfl

/-- Clearing the border bits within the 32-bit word and masking with them
gives 0. -/
theorem andNot_and_mask (f k : Nat) (hk : k < 4294967296) :
    (f &&& (0xFFFFFFFF ^^^ k)) &&& k = 0 := by
  apply Nat.eq_of_testBit_eq
  intro i
  rw [Nat.testBit_and, Nat.testBit_and, Nat.testBit_xor, testBit_word_mask, Nat.zero_testBit]
  by_cases hi : i < 32
  · cases f.testBit i <;> cases k.testBit i <;> simp [hi]
  · rw [testBit_of_lt_word k i hk (by omega)]
    simp

/-- C19: with the border constant a non-zero value of the 32-bit flag word,
after SetShowBorder(on) IsBorderShown() is `on`, every flag bit outside the
constant is as before, text, font, colour and the activation latch are
unchanged, and a second call with the same argument changes nothing. -/
theorem SetShowBorder_IsBorderShown (d : Decls) (w : GUITextBox) (b : Bool)
    (hk0 : d.kTextBox_ShowBorder ≠ 0) (hk : d.kTextBox_ShowBorder < 4294967296)
    (hf : w._textBoxFlags < 4294967296) :
    IsBorderShown d (SetShowBorder d w b) = b ∧
    (∀ i, d.kTextBox_ShowBorder.testBit i = false →
      (SetShowBorder d w b)._textBoxFlags.testBit i = w._textBoxFlags.testBit i) ∧
    (SetShowBorder d w b)._text = w._text ∧
    (SetShowBorder d w b)._font = w._font ∧
    (SetShowBorder d w b)._textColor = w._textColor ∧
    (SetShowBorder d w b)._isActivated = w._isActivated ∧
    SetShowBorder d (SetShowBorder d w b) b = SetShowBorder d w b := by
  cases b with
  | true =>
    refine ⟨?_, ?_, rfl, rfl, rfl, rfl, ?_⟩
    · simp [IsBorderShown, SetShowBorder, or_and_mask, hk0]
    · intro i hi
      simp [SetShowBorder, Nat.testBit_or, hi]
    · simp [SetShowBorder, Nat.or_assoc]
  | false =>
    refine ⟨?_, ?_, rfl, rfl, rfl, rfl, ?_⟩
    · simp [IsBorderShown, SetShowBorder, andNot_and_mask _ _ hk]
    · intro i hi
      simp only [SetShowBorder, Bool.false_eq_true, if_false, Nat.testBit_and, Nat.testBit_xor,
        testBit_word_mask, hi]
      by_cases h32 : i < 32
      · simp [h32]
      · simp [testBit_of_lt_word _ i hf (by omega)]
    · simp [SetShowBorder, Nat.and_assoc]

/-- Witness of C19: border bit 1, flag word 6: SetShowBorder(true) gives 7,
SetShowBorder(false) gives 6 again, and the border is reported accordingly. -/
theorem SetShowBorder_IsBorderShown_witness :
    (SetShowBorder sampleDecls { sampleBox [] with _textBoxFlags := 6 } true)._textBoxFlags = 7 ∧
    (SetShowBorder sampleDecls { sampleBox [] with _textBoxFlags := 7 } false)._textBoxFlags
      = 6 ∧
    IsBorderShown sampleDecls
      (SetShowBorder sampleDecls { sampleBox [] with _textBoxFlags := 6 } true) = true ∧
    IsBorderShown sampleDecls
      (SetShowBorder sampleDecls { sampleBox [] with _textBoxFlags := 7 } false) = false :=
  ⟨by decide, by decide,
    (SetShowBorder_IsBorderShown sampleDecls { sampleBox [] with _textBoxFlags := 6 } true
      (by decide) (by decide) (by decide)).1,
    (SetShowBorder_IsBorderShown sampleDecls { sampleBox [] with _textBoxFlags := 7 } false
      (by decide) (by decide) (by decide)).1⟩

/-! ## The transcoder: size of the output -/

/-- The loop stores at most one byte for each byte of the string. -/
theorem utf8_to_win1251_loop_length (behind : Nat → Nat) (fuel : Nat) :
    ∀ (text : List Nat) (uc : Int),
      (utf8_to_win1251_loop behind fuel text uc).length ≤ text.length := by
  induction fuel with
  | zero => intro text uc; simp [utf8_to_win1251_loop]
  | succ fuel ih =>
    intro text uc
    cases text with
    | nil => simp [utf8_to_win1251_loop]
    | cons b rest =>
      have hlen := readUnicodeChar_length behind b rest uc
      have h := ih (readUnicodeChar behind b rest uc).1 (readUnicodeChar behind b rest uc).2
      rw [utf8_to_win1251_loop]
      split
      · simp only [List.length_cons]
        omega
      · simp only [List.length_cons]
        omega

/-- C20: for every input string, whatever the memory behind its NUL holds,
and a non-null output buffer the transcoder returns 1; the bytes it stores
before the terminating NUL are at most as many as the input has, none of them
is 0, and more fuel than `strlen(text)` rounds never changes them (the loop
ends by itself); so the output with its NUL fits a buffer of
`strlen(text) + 1` bytes, and the 500-byte buffer of OnKeyPress when the text
bytes are fewer than 500. -/
theorem utf8_to_win1251_output_bound (text : List Nat) (behind : Nat → Nat) (buf : List Nat) :
    ∃ out, utf8_to_win1251 text behind (some buf) = (1, some out) ∧
      out.length ≤ text.length ∧
      (∀ b ∈ out, b ≠ 0 ∧ b < 256) ∧
      cstr out = out ∧
      (∀ fuel, text.length ≤ fuel → utf8_to_win1251_loop behind fuel text 0 = out) ∧
      out.length + 1 ≤ text.length + 1 ∧
      (text.length < 500 → out.length + 1 ≤ 500) := by
  refine ⟨utf8_to_win1251_loop behind text.length text 0, rfl,
    utf8_to_win1251_loop_length _ _ _ _, ?_, cstr_utf8_to_win1251_loop _ _ _ _, ?_, ?_, ?_⟩
  · intro b hb
    have h := utf8_to_win1251_loop_bytes _ _ _ _ b hb
    exact ⟨by omega, h.2⟩
  · intro fuel hfuel
    exact utf8_to_win1251_loop_fuel behind fuel text.length text 0 hfuel (le_refl _)
  · have h := utf8_to_win1251_loop_length behind text.length text 0
    omega
  · intro h500
    have h := utf8_to_win1251_loop_length behind text.length text 0
    omega

/-- Witness of C20 on inputs that are not well-formed UTF-8. The string F0
ends inside a four-byte sequence: the loop reads the NUL and the two bytes
behind it; with 90 80 there it stores '?', with zeros there it stores nothing.
The string 80 41 E2 82 has a stray continuation byte, then 'A', then a
three-byte sequence cut short: the NUL is read as its last byte. -/
theorem utf8_to_win1251_output_bound_witness :
    utf8_to_win1251 [0xF0] (bytesThenZeros [0x90, 0x80]) (some []) = (1, some [0x3F]) ∧
    utf8_to_win1251 [0xF0] (bytesThenZeros []) (some []) = (1, some []) ∧
    utf8_to_win1251 [0x80, 0x41, 0xE2, 0x82] (bytesThenZeros [0x90, 0x80]) (some [])
      = (1, some [0x41, 0x3F]) ∧
    (∃ out, utf8_to_win1251 [0xF0] (bytesThenZeros [0x90, 0x80]) (some []) = (1, some out) ∧
      out.length ≤ [0xF0].length ∧ (∀ b ∈ out, b ≠ 0 ∧ b < 256) ∧
      (500 ≤ [0xF0].length ∨ out.length + 1 ≤ 500)) :=
  ⟨by decide, by decide, by decide,
    (utf8_to_win1251_output_bound [0xF0] (bytesThenZeros [0x90, 0x80]) []).imp
      (fun _ h => ⟨h.1, h.2.1, h.2.2.1, Or.inr (h.2.2.2.2.2.2 (by decide))⟩)⟩

end AGS
